import Mathlib

/-!
A shallow embedding of the DemiMUD world-import engine
(`src/mudlib/src/import.rs`) and proofs about it.

The importer converts a statically parsed `World` (rooms, exits,
extra descriptions, objects, mobiles, mobprogs, shops, areas with reset
commands) into entities of an `EntityWorld`, together with the dense
vnum-indexed template tables (`VnumTemplates`) and a list of `Area`
records.

Record types from `crate::world`, component types from
`crate::components`, and the `EntityWorld` store from `crate::entity`
are declared outside the reviewed file; they are modelled here from the
fields `import.rs` reads and from the external-interface contract of the
specification.  Rust panics (`expect`, `unwrap`, out-of-bounds indexing)
are modelled by `Option`: `none` is an aborted import.
-/

namespace DemiMud

set_option linter.unusedVariables false

/-- A vnum (`crate::world::Vnum`): a newtype over `usize`, modelled as `Nat`. -/
abbrev Vnum := Nat

/-- Modelled from the spec: grammatical gender carried by the identity/text
facet (`crate::world::Gender`). -/
inductive Gender where
  | Male
  | Female
  | Neutral
  deriving DecidableEq

/-- Modelled from the spec: the twelve trigger kinds a mobile's scripted
behavior may declare (`crate::world::MobProgTrigger`); their payloads are
irrelevant to the importer, which only matches on the variant. -/
inductive MobProgTrigger where
  | Random
  | Speech
  | Greet
  | Entry
  | Act
  | Exit
  | Bribe
  | Give
  | Kill
  | Death
  | Hour
  | LoginRoom
  deriving DecidableEq

/-- An extra-description record: a keyword and a descriptive text. -/
structure ExtraDescription where
  keyword : String
  description : String
  deriving DecidableEq

/-- An exit record of a room, with the fields `import.rs` reads. -/
structure ExitRecord where
  name : String
  description : Option String
  vnum : Vnum
  has_door : Bool
  is_closed : Bool
  is_locked : Bool
  key : Option Vnum
  extra_keywords : Option String
  deriving DecidableEq

/-- A room record (`crate::world::Room`), with the fields `import.rs` reads. -/
structure Room where
  vnum : Vnum
  name : String
  description : String
  area : String
  sector : String
  exits : List ExitRecord
  extra_descriptions : List ExtraDescription
  deriving DecidableEq

/-- Modelled from the spec: object flags; the importer only inspects the
container variant (closable/closed/locked). -/
inductive ObjectFlags where
  | Container (closable : Bool) (closed : Bool) (locked : Bool)
  | Plain
  deriving DecidableEq

/-- An object record (`crate::world::Object`), with the fields `import.rs`
reads. -/
structure Object where
  vnum : Vnum
  name : String
  short_description : String
  description : String
  area : String
  cost : Nat
  item_type : String
  flags : ObjectFlags
  extra_descriptions : List ExtraDescription
  deriving DecidableEq

/-- A scripted-behavior (mobprog) record of `world.mobprogs`. -/
structure MobProgRecord where
  vnum : Vnum
  title : String
  code : String
  deriving DecidableEq

/-- Modelled from the spec: a shop record; the importer only reads its vnum
(zero is the sentinel for "no shop") and copies the record wholesale. -/
structure Shop where
  vnum : Vnum
  deriving DecidableEq

/-- A mobile record (`crate::world::Mobile`), with the fields `import.rs`
reads. -/
structure Mobile where
  vnum : Vnum
  name : String
  short_description : String
  long_description : String
  description : String
  area : String
  gender : Gender
  sentinel : Bool
  mobprog_triggers : List (MobProgTrigger × Vnum)
  deriving DecidableEq

/-- A reset command (`crate::world::ResetCommand`).  The `Door` variant's
payload is never read by the importer (it is matched with `..`). -/
inductive ResetCommand where
  | Mob (m_num : Vnum) (global_limit : Nat) (r_num : Vnum) (room_limit : Nat)
  | Object (o_num : Vnum) (global_limit : Nat) (r_num : Vnum)
  | Door (r_num : Vnum) (direction : Nat) (state : Nat)
  | Give (o_num : Vnum) (global_limit : Nat)
  | Equip (o_num : Vnum) (global_limit : Nat) (location : String)
  | Put (o_num : Vnum) (global_limit : Nat) (c_num : Vnum) (container_limit : Nat)
  deriving DecidableEq

/-- Area metadata, with the fields `import.rs` copies into `state::Area`. -/
structure AreaData where
  name : String
  vnums : Nat × Nat
  credits : String
  deriving DecidableEq

/-- The parsed world (`crate::world::World`), with the collections
`import.rs` reads.  `shops` is indexed positionally by mobile vnum, with
vnum-0 sentinel entries. -/
structure World where
  rooms : List Room
  objects : List Object
  mobiles : List Mobile
  mobprogs : List MobProgRecord
  shops : List Shop
  areas : List (AreaData × List ResetCommand)
  deriving DecidableEq

/-- The produced `state::Area` display record. -/
structure Area where
  name : String
  vnums : Nat × Nat
  credits : String
  deriving DecidableEq

/-! ## Component bundles (`crate::components`)

Modelled from the spec: the per-entity aggregate of an identity/text facet,
a four-role descriptive-text facet, general metadata, and optional
specialization facets.  The text interner returns reusable handles for the
two text tuples; the handle is modelled as the tuple itself. -/

/-- The interned identity/text tuple (keyword, short description, gender). -/
structure ActInfo where
  keyword : String
  short_description : String
  gender : Gender
  deriving DecidableEq

/-- The interned four-role descriptive-text tuple. -/
structure Descriptions where
  title : String
  internal : String
  external : String
  lateral : String
  deriving DecidableEq

/-- The entity-kind tag (`crate::components::EntityType`), restricted to the
kinds the importer creates. -/
inductive EntityType where
  | Room
  | Exit
  | ExtraDescription
  | Mobile
  | MobProg
  | Object
  deriving DecidableEq

/-- General metadata facet (`crate::components::GeneralData`). -/
structure GeneralData where
  vnum : Vnum
  area : String
  sector : Option String
  entity_type : EntityType
  equipped : Option String
  command_queue : List String
  following : Option Nat
  deriving DecidableEq

/-- Door facet (`crate::components::Door`). -/
structure Door where
  closed : Bool
  locked : Bool
  key : Option Vnum
  deriving DecidableEq

/-- Mobile-behavior facet (`crate::components::Mobile`). -/
structure MobileComponent where
  wander : Bool
  shopkeeper : Option Shop
  remember : Option Nat
  deriving DecidableEq

/-- Scripted-behavior facet (`crate::components::MobProg`). -/
structure MobProg where
  trigger : MobProgTrigger
  code : String
  deriving DecidableEq

/-- Object-behavior facet (`crate::components::Object`). -/
structure ObjectComponent where
  cost : Nat
  key : Option Vnum
  container : Bool
  food : Bool
  deriving DecidableEq

/-- The full component bundle (`crate::components::Components`). -/
structure Components where
  act_info : ActInfo
  descriptions : Descriptions
  general : GeneralData
  mobile : Option MobileComponent
  object : Option ObjectComponent
  door : Option Door
  mobprog : Option MobProg
  silver : Option Nat
  deriving DecidableEq

/-- `interner.act_info`: interning modelled as the identity on the tuple. -/
def actInfo (keyword short_description : String) (gender : Gender) : ActInfo :=
  { keyword := keyword, short_description := short_description, gender := gender }

/-- `interner.descriptions`: interning modelled as the identity on the tuple. -/
def mkDescriptions (title internal external lateral : String) : Descriptions :=
  { title := title, internal := internal, external := external, lateral := lateral }

/-- The general-metadata facet as every construction site of `import.rs`
builds it: an empty command queue, no equip slot, no follow target. -/
def mkGeneralData (vnum : Vnum) (area : String) (sector : Option String)
    (entity_type : EntityType) : GeneralData :=
  { vnum := vnum, area := area, sector := sector, entity_type := entity_type,
    equipped := none, command_queue := [], following := none }

/-! ## The entity store (`crate::entity::EntityWorld`)

Modelled from the spec's external-interface contract: create an entity
under a parent (fresh id), read/mutate a bundle by id, test object-kind,
enumerate all entities, set a non-owning leads-to relation, register a
landmark, obtain the root id and a permanent id.  Entities are kept in
insertion order; ids come from a counter. -/

abbrev EntityId := Nat

abbrev PermanentEntityId := Nat

/-- One stored entity: its id, owning parent, component bundle, and the
non-owning leads-to cross-link. -/
structure Entity where
  id : EntityId
  parent : EntityId
  components : Components
  leads_to : Option EntityId
  deriving DecidableEq

/-- The entity store: an id counter, the root entity id, the entities in
insertion order, and the landmark registry. -/
structure EntityWorld where
  next_id : Nat
  world_id : EntityId
  entities : List Entity
  landmarks : List (String × EntityId)
  deriving DecidableEq

/-- `EntityWorld::insert_entity`: create an entity under `parent` with bundle
`c`, returning the updated store and the fresh id. -/
def EntityWorld.insertEntity (ew : EntityWorld) (parent : EntityId) (c : Components) :
    EntityWorld × EntityId :=
  ({ ew with
      entities := ew.entities ++
        [{ id := ew.next_id, parent := parent, components := c, leads_to := none }],
      next_id := ew.next_id + 1 },
    ew.next_id)

/-- `EntityWorld::set_leads_to`. -/
def EntityWorld.setLeadsTo (ew : EntityWorld) (i target : EntityId) : EntityWorld :=
  { ew with
      entities := ew.entities.map fun e =>
        if e.id = i then { e with leads_to := some target } else e }

/-- `EntityWorld::add_landmark`. -/
def EntityWorld.addLandmark (ew : EntityWorld) (name : String) (i : EntityId) : EntityWorld :=
  { ew with landmarks := ew.landmarks ++ [(name, i)] }

/-- `EntityWorld::entity_info`: look an entity up by id (`none` models the
panic on a dangling id). -/
def EntityWorld.entityInfo (ew : EntityWorld) (i : EntityId) : Option Entity :=
  ew.entities.find? fun e => e.id == i

/-- `EntityInfo::permanent_entity_id`: the canonical entity's stable id. -/
def Entity.permanentId (e : Entity) : PermanentEntityId :=
  e.id

/-- `EntityInfo::is_object`: whether the entity's kind is "object". -/
def Entity.isObject (e : Entity) : Bool :=
  e.components.general.entity_type == EntityType.Object

/-- The mutation performed by the `Equip` reset command: set the equip-slot
label of entity `i`. -/
def EntityWorld.setEquipped (ew : EntityWorld) (i : EntityId) (loc : String) : EntityWorld :=
  { ew with
      entities := ew.entities.map fun e =>
        if e.id = i then
          { e with components :=
              { e.components with general := { e.components.general with equipped := some loc } } }
        else e }

/-! ## Small helpers: whitespace splitting, hash maps, vector writes -/

/-- Recursive worker for `splitWhitespace`; `cur` holds the current token's
characters in reverse. -/
def splitWhitespaceAux : List Char → List Char → List String
  | [], [] => []
  | [], cur => [String.mk cur.reverse]
  | c :: rest, cur =>
    if c.isWhitespace then
      match cur with
      | [] => splitWhitespaceAux rest []
      | _ :: _ => String.mk cur.reverse :: splitWhitespaceAux rest []
    else
      splitWhitespaceAux rest (c :: cur)

/-- Rust's `str::split_whitespace`: the maximal non-empty runs of
non-whitespace characters. -/
def splitWhitespace (s : String) : List String :=
  splitWhitespaceAux s.data []

/-- `HashMap::insert`, modelled on an association list: a later insert of the
same key replaces the earlier binding. -/
def hmInsert (m : List (Nat × Nat)) (k v : Nat) : List (Nat × Nat) :=
  (k, v) :: m.filter fun p => p.1 != k

/-- `HashMap::get`, modelled on an association list. -/
def hmLookup (m : List (Nat × Nat)) (k : Nat) : Option Nat :=
  (m.find? fun p => p.1 == k).map Prod.snd

/-- A Rust `Vec` index assignment `v[i] = a`: panics (`none`) when `i` is out
of bounds. -/
def setOrFail {α : Type} (l : List α) (i : Nat) (a : α) : Option (List α) :=
  if i < l.length then some (l.set i a) else none

/-! ## Template Builder (`import_object_components`,
`import_mobile_components`) -/

/-- Whether an extra-description's keyword token set is entirely contained in
the object's own keyword token set (lines 456-464 of `import.rs`). -/
def keywordsMatch (objectName : String) (ed : ExtraDescription) : Bool :=
  (splitWhitespace ed.keyword).all fun desc_keyword =>
    (splitWhitespace objectName).any fun obj_keyword => obj_keyword == desc_keyword

/-- The child bundle built for a non-matching extra-description record of an
object (lines 471-504 of `import.rs`). -/
def mkObjectExtraDescription (object : Object) (ed : ExtraDescription) : Components :=
  { act_info := actInfo ed.keyword
      ("extra description called '" ++ ed.keyword ++ "'") Gender.Neutral,
    descriptions := mkDescriptions
      "Inside an object extra description."
      "You are inside an object's extra description. That normally shouldn't be possible."
      ed.description
      ("An extra description called '" ++ ed.keyword ++ "' is here."),
    general := mkGeneralData 0 object.area none EntityType.ExtraDescription,
    mobile := none, object := none, door := none, mobprog := none, silver := none }

/-- `import_object_components` (lines 444-575 of `import.rs`): scan the
extra-description records, diverting each whose keywords all occur among the
object's keywords into the main description slot (overwriting any earlier
one) and turning the others into child bundles; then build the base bundle,
with a door facet synthesized from closable container flags and an object
facet derived from the item category. -/
def importObjectComponents (object : Object) : Components × List Components :=
  let scan := object.extra_descriptions.foldl
    (fun (acc : Option String × List Components) ed =>
      if keywordsMatch object.name ed then
        (some ed.description, acc.2)
      else
        (acc.1, acc.2 ++ [mkObjectExtraDescription object ed]))
    (none, [])
  let external : String :=
    match scan.1 with
    | some description => description
    | none => object.description
  let door : Option Door :=
    match object.flags with
    | ObjectFlags.Container closable closed locked =>
      if closable then some { closed := closed, locked := locked, key := none } else none
    | ObjectFlags.Plain => none
  ({ act_info := actInfo object.name object.short_description Gender.Neutral,
     descriptions := mkDescriptions
       ("Inside " ++ object.short_description ++ ".")
       ("You are inside " ++ object.short_description ++ ". How did you get into it?")
       external
       object.description,
     general := mkGeneralData object.vnum object.area none EntityType.Object,
     mobile := none,
     object := some { cost := object.cost,
                      key := if object.item_type == "key" then some object.vnum else none,
                      container := object.item_type == "container",
                      food := object.item_type == "food" },
     door := door,
     mobprog := none,
     silver := none },
   scan.2)

/-- The twelve fixed trigger-kind labels (lines 391-404 of `import.rs`). -/
def mobProgTriggerLabel : MobProgTrigger → String
  | MobProgTrigger.Random => "on-chance"
  | MobProgTrigger.Speech => "on-speech"
  | MobProgTrigger.Greet => "on-greet"
  | MobProgTrigger.Entry => "on-entry"
  | MobProgTrigger.Act => "on-act"
  | MobProgTrigger.Exit => "on-exit"
  | MobProgTrigger.Bribe => "on-bribe"
  | MobProgTrigger.Give => "on-give"
  | MobProgTrigger.Kill => "on-kill"
  | MobProgTrigger.Death => "on-death"
  | MobProgTrigger.Hour => "on-hour"
  | MobProgTrigger.LoginRoom => "on-login"

/-- The mobprog child bundle synthesized for one (trigger, vnum) pair of a
mobile (lines 390-438 of `import.rs`). -/
def mkMobProgComponents (mobile : Mobile) (trig : MobProgTrigger) (mp : MobProgRecord) :
    Components :=
  { act_info := actInfo "mobprog"
      ("an " ++ mobProgTriggerLabel trig ++ " mobprog titled '`S" ++ mp.title ++ "`^'")
      Gender.Neutral,
    descriptions := mkDescriptions
      "Inside a mobprog."
      "You are inside a mobprog. Instructions are floating all around the area."
      ("It's a mobprog. When triggered, it runs the following code:\r\n" ++ mp.code ++ "\r\n")
      "A mobprog is installed here, affecting its surroundings.",
    general := mkGeneralData mp.vnum mobile.area none EntityType.MobProg,
    mobile := none, object := none, door := none,
    mobprog := some { trigger := trig, code := mp.code },
    silver := none }

/-- Map a fallible function over a list, failing as soon as one element
fails (the shape of the mobprog-trigger loop, whose `expect` aborts at the
first missing mobprog). -/
def mapOptionAll {α β : Type} (f : α → Option β) : List α → Option (List β)
  | [] => some []
  | a :: l =>
    match f a with
    | none => none
    | some b => (mapOptionAll f l).map fun bl => b :: bl

/-- `import_mobile_components` (lines 330-442 of `import.rs`): build the
mobile's base bundle (wander is the inverse of the sentinel flag, the
shopkeeper record is the same-vnum shop entry when non-sentinel), and one
mobprog child bundle per declared (trigger, vnum) pair; a pair whose vnum
has no entry at that position of `world.mobprogs` aborts (`expect`). -/
def importMobileComponents (mobile : Mobile) (world : World) :
    Option (Components × List Components) :=
  let objective_pronoun : String :=
    match mobile.gender with
    | Gender.Male => "him"
    | Gender.Female => "her"
    | Gender.Neutral => "it"
  let shop := (world.shops.get? mobile.vnum).filter fun shop => shop.vnum != 0
  let mobile_components : Components :=
    { act_info := actInfo mobile.name mobile.short_description mobile.gender,
      descriptions := mkDescriptions
        ("Inside " ++ mobile.short_description ++ ".")
        ("You are inside " ++ mobile.short_description ++ ". How did you get into " ++
          objective_pronoun ++ "?")
        mobile.description
        mobile.long_description,
      general := mkGeneralData mobile.vnum mobile.area none EntityType.Mobile,
      mobile := some { wander := !mobile.sentinel, shopkeeper := shop, remember := none },
      object := none, door := none, mobprog := none, silver := none }
  match mapOptionAll
      (fun tv => (world.mobprogs.get? tv.2).map fun mp => mkMobProgComponents mobile tv.1 mp)
      mobile.mobprog_triggers with
  | some mobprogs => some (mobile_components, mobprogs)
  | none => none

/-! ## Room Graph Builder (first loop of `import_from_world`) -/

/-- The room bundle (lines 31-63 of `import.rs`). -/
def mkRoomComponents (room : Room) : Components :=
  { act_info := actInfo room.name room.name Gender.Neutral,
    descriptions := mkDescriptions
      room.name
      room.description
      ("It's a room called '" ++ room.name ++ "'.")
      ("A room called '" ++ room.name ++ "' is here."),
    general := mkGeneralData room.vnum room.area (some room.sector) EntityType.Room,
    mobile := none, object := none, door := none, mobprog := none, silver := none }

/-- The exit bundle (lines 68-121 of `import.rs`): the keyword is the
direction name, prefixed with "door " when the exit has a door and with the
extra keywords when present; a door facet only when the exit has a door. -/
def mkExitComponents (room : Room) (exit : ExitRecord) : Components :=
  let keyword0 := exit.name
  let withDoor : String × Option Door :=
    if exit.has_door then
      ("door " ++ keyword0,
        some { closed := exit.is_closed, locked := exit.is_locked, key := exit.key })
    else
      (keyword0, none)
  let keyword : String :=
    match exit.extra_keywords with
    | some extra_keywords => extra_keywords ++ " " ++ withDoor.1
    | none => withDoor.1
  { act_info := actInfo keyword ("the " ++ exit.name ++ " exit") Gender.Neutral,
    descriptions := mkDescriptions
      ("Inside an " ++ exit.name ++ " exit.")
      ("You are inside an " ++ exit.name ++ " exit. That normally shouldn't be possible.")
      (match exit.description with
       | some description => description
       | none => "You don't see anything special in that direction.")
      ("An exit leading " ++ exit.name ++ " is here."),
    general := mkGeneralData 0 room.area none EntityType.Exit,
    mobile := none, object := none, door := withDoor.2, mobprog := none, silver := none }

/-- The extra-description bundle of a room (lines 127-163 of `import.rs`). -/
def mkRoomExtraDescription (room : Room) (ed : ExtraDescription) : Components :=
  { act_info := actInfo ed.keyword
      ("extra description called '" ++ ed.keyword ++ "'") Gender.Neutral,
    descriptions := mkDescriptions
      "Inside an extra description."
      "You are inside an extra description. That normally shouldn't be possible."
      ed.description
      ("An extra description called '" ++ ed.keyword ++ "' is here."),
    general := mkGeneralData 0 room.area none EntityType.ExtraDescription,
    mobile := none, object := none, door := none, mobprog := none, silver := none }

/-- The state threaded through the room loop: the entity store, the
`room_vnum_to_id` map and the pending `exit_leads_to` links. -/
structure BuildState where
  ew : EntityWorld
  room_vnum_to_id : List (Nat × Nat)
  exit_leads_to : List (EntityId × Vnum)
  deriving DecidableEq

/-- One iteration of the exit loop inside the room loop (lines 68-125 of
`import.rs`): insert the exit entity under the room and record its pending
destination link. -/
def buildRoomExitStep (room : Room) (room_id : EntityId)
    (acc : EntityWorld × List (EntityId × Vnum)) (exit : ExitRecord) :
    EntityWorld × List (EntityId × Vnum) :=
  let ins := acc.1.insertEntity room_id (mkExitComponents room exit)
  (ins.1, acc.2 ++ [(ins.2, exit.vnum)])

/-- One iteration of the room loop (lines 30-169 of `import.rs`): insert the
room under the root, its exits and extra descriptions under the room,
record each exit's pending destination, record vnum → room id. -/
def buildRoom (st : BuildState) (room : Room) : BuildState :=
  let inserted := st.ew.insertEntity st.ew.world_id (mkRoomComponents room)
  let room_id := inserted.2
  let afterExits := room.exits.foldl (buildRoomExitStep room room_id)
    (inserted.1, st.exit_leads_to)
  let ew := room.extra_descriptions.foldl
    (fun ew ed => (ew.insertEntity room_id (mkRoomExtraDescription room ed)).1)
    afterExits.1
  { ew := ew,
    room_vnum_to_id := hmInsert st.room_vnum_to_id room.vnum room_id,
    exit_leads_to := afterExits.2 }

/-- The whole room loop, from an arbitrary starting store. -/
def buildRooms (world : World) (ew : EntityWorld) : BuildState :=
  world.rooms.foldl buildRoom { ew := ew, room_vnum_to_id := [], exit_leads_to := [] }

/-! ## Reference Resolver (second pass of `import_from_world`) -/

/-- The exit-resolution pass (lines 171-175 of `import.rs`): for each pending
link whose destination vnum is a known room, set the exit's leads-to
relation; unknown destinations are left alone. -/
def resolveExits (ew : EntityWorld) (exit_leads_to : List (EntityId × Vnum))
    (rmap : List (Nat × Nat)) : EntityWorld :=
  exit_leads_to.foldl
    (fun ew p =>
      match hmLookup rmap p.2 with
      | some to_room_id => ew.setLeadsTo p.1 to_room_id
      | none => ew)
    ew

/-- The fixed landmark table (lines 177-184 of `import.rs`). -/
def landmarkTable : List (String × Nat) :=
  [("gnomehill", 23611), ("mekali", 3000), ("dzagari", 27003),
   ("mudschool", 7371), ("void", 1), ("limbo", 2)]

/-- The landmark-registration loop (lines 186-193 of `import.rs`): a missing
landmark room aborts (`expect`). -/
def addLandmarks (ew : EntityWorld) (rmap : List (Nat × Nat)) : Option EntityWorld :=
  landmarkTable.foldlM
    (fun ew p => (hmLookup rmap p.2).map fun room_id => ew.addLandmark p.1 room_id)
    ew

/-! ## The vnum template tables (lines 195-239 of `import_from_world`) -/

/-- The four dense vnum-indexed template tables. -/
structure VnumTemplates where
  vnum_to_room_entity : List (Option PermanentEntityId)
  vnum_to_mobprog : List (Option String)
  object_components : List (Option (Components × List Components))
  mobile_components : List (Option (Components × List Components))
  deriving DecidableEq

/-- The room-template loop (lines 215-221 of `import.rs`): record each
nonzero room vnum's permanent entity id at index `vnum`. -/
def populateRoomTemplates (rooms : List Room) (rmap : List (Nat × Nat)) (ew : EntityWorld)
    (t : List (Option PermanentEntityId)) : Option (List (Option PermanentEntityId)) :=
  rooms.foldlM
    (fun t room =>
      if room.vnum != 0 then do
        let room_id ← hmLookup rmap room.vnum
        let room_entity ← ew.entityInfo room_id
        setOrFail t room.vnum (some room_entity.permanentId)
      else
        some t)
    t

/-- The object-template loop (lines 223-228 of `import.rs`). -/
def populateObjectTemplates (objects : List Object)
    (t : List (Option (Components × List Components))) :
    Option (List (Option (Components × List Components))) :=
  objects.foldlM
    (fun t object =>
      if object.vnum != 0 then
        setOrFail t object.vnum (some (importObjectComponents object))
      else
        some t)
    t

/-- The mobile-template loop (lines 230-235 of `import.rs`). -/
def populateMobileTemplates (world : World)
    (t : List (Option (Components × List Components))) :
    Option (List (Option (Components × List Components))) :=
  world.mobiles.foldlM
    (fun t mobile =>
      if mobile.vnum != 0 then do
        let components ← importMobileComponents mobile world
        setOrFail t mobile.vnum (some components)
      else
        some t)
    t

/-- The mobprog-template loop (lines 237-239 of `import.rs`): note that,
unlike the three loops above, it has no `vnum != 0` guard. -/
def populateMobProgTemplates (mobprogs : List MobProgRecord) (t : List (Option String)) :
    Option (List (Option String)) :=
  mobprogs.foldlM (fun t mobprog => setOrFail t mobprog.vnum (some mobprog.code)) t

/-- Lines 195-239 of `import.rs`: create the four tables sized to the room
count (`resize(world.rooms.len(), None)`) and run the four population
loops. -/
def populateTemplates (world : World) (rmap : List (Nat × Nat)) (ew : EntityWorld) :
    Option VnumTemplates := do
  let n := world.rooms.length
  let room_entities ← populateRoomTemplates world.rooms rmap ew (List.replicate n none)
  let object_components ← populateObjectTemplates world.objects (List.replicate n none)
  let mobile_components ← populateMobileTemplates world (List.replicate n none)
  let vnum_to_mobprog ← populateMobProgTemplates world.mobprogs (List.replicate n none)
  some { vnum_to_room_entity := room_entities,
         vnum_to_mobprog := vnum_to_mobprog,
         object_components := object_components,
         mobile_components := mobile_components }

/-! ## Reset Script Interpreter (lines 241-315 of `import_from_world`) -/

/-- `load_object` (lines 577-594 of `import.rs`): clone the object template
(base and extra-description children) under `container`; a missing template
aborts (`expect`, and out-of-range indexing panics). -/
def loadObject (vnum : Vnum) (container : EntityId) (vnum_templates : VnumTemplates)
    (entity_world : EntityWorld) : Option (EntityWorld × EntityId) :=
  match vnum_templates.object_components.get? vnum with
  | some (some components) =>
    let ins := entity_world.insertEntity container components.1
    let object_id := ins.2
    let ew := components.2.foldl
      (fun ew extra_description => (ew.insertEntity object_id extra_description).1)
      ins.1
    some (ew, object_id)
  | _ => none

/-- The interpreter state of one area's run: the store and the optional
last-spawned-mobile cursor. -/
abbrev ResetState := EntityWorld × Option EntityId

/-- One reset command (the `match` of lines 245-313 of `import.rs`).  `none`
models the panics: a missing room or template, or a `Give`/`Equip` with no
last spawned mobile (`unwrap`). -/
def runResetCommand (rmap : List (Nat × Nat)) (t : VnumTemplates) (st : ResetState) :
    ResetCommand → Option ResetState
  | ResetCommand.Mob m_num _ r_num _ => do
    let room_entity_id ← hmLookup rmap r_num
    match t.mobile_components.get? m_num with
    | some (some mobile_components) =>
      let ins := st.1.insertEntity room_entity_id mobile_components.1
      let mobile_entity_id := ins.2
      let ew := mobile_components.2.foldl
        (fun ew mobprog => (ew.insertEntity mobile_entity_id mobprog).1)
        ins.1
      some (ew, some mobile_entity_id)
    | _ => none
  | ResetCommand.Object o_num _ r_num => do
    let room_entity_id ← hmLookup rmap r_num
    let loaded ← loadObject o_num room_entity_id t st.1
    some (loaded.1, st.2)
  | ResetCommand.Door _ _ _ => some st
  | ResetCommand.Give o_num _ => do
    let last_mobile_id ← st.2
    let loaded ← loadObject o_num last_mobile_id t st.1
    some (loaded.1, st.2)
  | ResetCommand.Equip o_num _ location => do
    let last_mobile_id ← st.2
    let loaded ← loadObject o_num last_mobile_id t st.1
    some (loaded.1.setEquipped loaded.2 location, st.2)
  | ResetCommand.Put o_num _ c_num _ =>
    match st.1.entities.find? (fun e => e.components.general.vnum == c_num && e.isObject) with
    | some container => do
      let loaded ← loadObject o_num container.id t st.1
      some (loaded.1, st.2)
    | none => some st

/-- One area's reset run: the command list is folded from an unset
last-spawned-mobile cursor. -/
def runArea (rmap : List (Nat × Nat)) (t : VnumTemplates) (resets : List ResetCommand)
    (ew : EntityWorld) : Option ResetState :=
  resets.foldlM (runResetCommand rmap t) (ew, none)

/-- The outer reset loop (lines 241-315 of `import.rs`): each area's run
starts with the cursor unset. -/
def runResets (rmap : List (Nat × Nat)) (t : VnumTemplates)
    (areas : List (AreaData × List ResetCommand)) (ew : EntityWorld) : Option EntityWorld :=
  areas.foldlM (fun ew area => (runArea rmap t area.2 ew).map Prod.fst) ew

/-- `import_from_world` (lines 23-328 of `import.rs`): build the room graph,
resolve exits, register landmarks, populate the template tables, run every
area's reset script, and emit the display `Area` records.  `none` is an
aborted import. -/
def importFromWorld (entity_world : EntityWorld) (world : World) :
    Option (EntityWorld × VnumTemplates × List Area) := do
  let st := buildRooms world entity_world
  let ew := resolveExits st.ew st.exit_leads_to st.room_vnum_to_id
  let ew ← addLandmarks ew st.room_vnum_to_id
  let vnum_templates ← populateTemplates world st.room_vnum_to_id ew
  let ew ← runResets st.room_vnum_to_id vnum_templates world.areas ew
  let areas := world.areas.map fun area =>
    ({ name := area.1.name, vnums := area.1.vnums, credits := area.1.credits } : Area)
  some (ew, vnum_templates, areas)

/-! ## Observations and well-formedness predicates used by the theorems -/

/-- A store is well formed when every stored id is below the id counter, so
that the next insertion gets a fresh id. -/
abbrev storeWF (ew : EntityWorld) : Prop :=
  ∀ e ∈ ew.entities, e.id < ew.next_id

/-- The invariant maintained by the room loop: ids are below the counter,
every pending exit link names a below-counter id, the link ids are distinct,
each link's entity is an exit with no leads-to relation yet, and each
`room_vnum_to_id` entry names a room entity carrying that vnum. -/
def buildWF (st : BuildState) : Prop :=
  storeWF st.ew ∧
  (∀ p ∈ st.exit_leads_to, p.1 < st.ew.next_id) ∧
  (st.exit_leads_to.map Prod.fst).Nodup ∧
  (∀ p ∈ st.exit_leads_to, ∃ e : Entity, st.ew.entityInfo p.1 = some e ∧
    e.components.general.entity_type = EntityType.Exit ∧ e.leads_to = none) ∧
  (∀ kv ∈ st.room_vnum_to_id, ∃ e : Entity, st.ew.entityInfo kv.2 = some e ∧
    e.components.general.entity_type = EntityType.Room ∧
    e.components.general.vnum = kv.1)

/-- The number of mobile-kind entities with vnum `m` parented directly under
entity `pid`. -/
def countMobiles (ew : EntityWorld) (pid : EntityId) (m : Vnum) : Nat :=
  (ew.entities.filter fun e =>
    e.parent == pid && e.components.general.entity_type == EntityType.Mobile &&
      e.components.general.vnum == m).length

/-- Whether a reset command is a place-mobile-in-room command for mobile vnum
`m` naming a room vnum that `rmap` sends to entity `pid`. -/
def countedMobCommand (rmap : List (Nat × Nat)) (pid : EntityId) (m : Vnum) :
    ResetCommand → Bool
  | ResetCommand.Mob m' _ r' _ => m' == m && hmLookup rmap r' == some pid
  | _ => false

/-- The number of place-mobile-in-room commands for mobile `m` and room
entity `pid` in a reset list. -/
def countMobCommands (rmap : List (Nat × Nat)) (pid : EntityId) (m : Vnum)
    (resets : List ResetCommand) : Nat :=
  (resets.filter (countedMobCommand rmap pid m)).length

/-- Whether a reset command is a place-mobile-in-room command. -/
def isMobCommand : ResetCommand → Bool
  | ResetCommand.Mob _ _ _ _ => true
  | _ => false

/-- Whether a reset command is give-object-to-last-mobile or
equip-object-on-last-mobile. -/
def isGiveOrEquipCommand : ResetCommand → Bool
  | ResetCommand.Give _ _ => true
  | ResetCommand.Equip _ _ _ => true
  | _ => false

/-- A mobile template stored at index `i` is well formed when its base bundle
is mobile-kind with vnum `i` and none of its children is mobile-kind. -/
def mobTemplateOK (i : Nat) : Option (Components × List Components) → Bool
  | some (c, cs) =>
    c.general.entity_type == EntityType.Mobile && c.general.vnum == i &&
      cs.all fun x => x.general.entity_type != EntityType.Mobile
  | none => true

/-- An object template is well formed when neither its base bundle nor any of
its children is mobile-kind. -/
def objTemplateOK : Option (Components × List Components) → Bool
  | some (c, cs) =>
    c.general.entity_type != EntityType.Mobile &&
      cs.all fun x => x.general.entity_type != EntityType.Mobile
  | none => true

/-- All mobile templates of a table are well formed (`populateTemplates`
produces such tables: `import_mobile_components` stores each mobile under its
own vnum with mobprog-kind children). -/
abbrev mobileTemplatesWF (t : VnumTemplates) : Prop :=
  ∀ i, ∀ h : i < t.mobile_components.length,
    mobTemplateOK i (t.mobile_components.get ⟨i, h⟩) = true

/-- All object templates of a table are well formed. -/
abbrev objectTemplatesWF (t : VnumTemplates) : Prop :=
  ∀ i, ∀ h : i < t.object_components.length,
    objTemplateOK (t.object_components.get ⟨i, h⟩) = true

/-! ## Concrete inputs used by the witnesses and counterexamples -/

/-- An empty entity store with the root entity id 0 already allocated. -/
def testStore : EntityWorld :=
  { next_id := 1, world_id := 0, entities := [], landmarks := [] }

/-- An empty template table. -/
def emptyTemplates : VnumTemplates :=
  { vnum_to_room_entity := [], vnum_to_mobprog := [],
    object_components := [], mobile_components := [] }

/-- A minimal room record with vnum `v` and no exits or extra descriptions. -/
def mkTestRoom (v : Vnum) : Room :=
  { vnum := v, name := "a room", description := "A room.", area := "midgaard",
    sector := "city", exits := [], extra_descriptions := [] }

/-- A doorless test exit leading to room vnum `v`. -/
def mkTestExit (v : Vnum) : ExitRecord :=
  { name := "north", description := none, vnum := v, has_door := false,
    is_closed := false, is_locked := false, key := none, extra_keywords := none }

/-- An object whose keyword set is ["long", "sword"], with extra descriptions
keyed "sword" and "long" (both subsumed by the object's keywords) and "rust"
(not subsumed). -/
def c1Object : Object :=
  { vnum := 7, name := "long sword", short_description := "a long sword",
    description := "A long sword lies here.", area := "midgaard", cost := 10,
    item_type := "weapon", flags := ObjectFlags.Plain,
    extra_descriptions :=
      [{ keyword := "sword", description := "An old blade." },
       { keyword := "long", description := "A very long blade." },
       { keyword := "rust", description := "Specks of rust." }] }

/-- A world with one vnum-0 room and one vnum-0 mobprog record. -/
def c2World : World :=
  { rooms := [mkTestRoom 0], objects := [], mobiles := [],
    mobprogs := [{ vnum := 0, title := "zero", code := "say hello" }],
    shops := [], areas := [] }

/-- A world with one room (vnum 5) having an exit back to vnum 5 and a
dangling exit to vnum 7. -/
def c4World : World :=
  { rooms := [{ mkTestRoom 5 with exits := [mkTestExit 5, mkTestExit 7] }],
    objects := [], mobiles := [], mobprogs := [], shops := [], areas := [] }

/-- The build state after the room pass over `c4World`. -/
def c4State : BuildState :=
  buildRooms c4World testStore

/-- The store after exit resolution over `c4World`. -/
def c4Resolved : EntityWorld :=
  resolveExits c4State.ew c4State.exit_leads_to c4State.room_vnum_to_id

/-- A well-formed mobile template base bundle for vnum 1. -/
def mobileTemplate1 : Components :=
  { act_info := actInfo "guard" "a guard" Gender.Male,
    descriptions := mkDescriptions "Inside a guard."
      "You are inside a guard. How did you get into him?"
      "A burly guard." "A guard stands here.",
    general := mkGeneralData 1 "midgaard" none EntityType.Mobile,
    mobile := some { wander := true, shopkeeper := none, remember := none },
    object := none, door := none, mobprog := none, silver := none }

/-- A template table holding only the mobile template for vnum 1. -/
def c5Templates : VnumTemplates :=
  { vnum_to_room_entity := [], vnum_to_mobprog := [],
    object_components := [], mobile_components := [none, some (mobileTemplate1, [])] }

/-- A vnum→entity map sending room vnum 5 to entity 9. -/
def c5Rmap : List (Nat × Nat) :=
  [(5, 9)]

/-- One place-mobile-in-room command with nonzero limit fields. -/
def c5Commands : List ResetCommand :=
  [ResetCommand.Mob 1 2 5 3]

/-- The state after running `c5Commands`. -/
def c5State : ResetState :=
  (runArea c5Rmap c5Templates c5Commands testStore).getD (testStore, none)

/-- A plain (non-container, non-key) object with vnum 1. -/
def c6Object : Object :=
  { vnum := 1, name := "breastplate", short_description := "a breastplate",
    description := "A breastplate lies here.", area := "midgaard", cost := 100,
    item_type := "armor", flags := ObjectFlags.Plain, extra_descriptions := [] }

/-- A template table holding only the object template for vnum 1. -/
def c6Templates : VnumTemplates :=
  { vnum_to_room_entity := [], vnum_to_mobprog := [],
    object_components := [none, some (importObjectComponents c6Object)],
    mobile_components := [] }

/-- The state after an equip command for object vnum 1 in slot "torso". -/
def c6EquipState : ResetState :=
  (runResetCommand [] c6Templates (testStore, some 0)
    (ResetCommand.Equip 1 0 "torso")).getD (testStore, none)

/-- The state after a give command for object vnum 1. -/
def c6GiveState : ResetState :=
  (runResetCommand [] c6Templates (testStore, some 0)
    (ResetCommand.Give 1 0)).getD (testStore, none)

/-- The base bundle of a container-category object with vnum 10. -/
def chestComponents : Components :=
  (importObjectComponents
    { vnum := 10, name := "chest", short_description := "a chest",
      description := "A chest.", area := "midgaard", cost := 0,
      item_type := "container", flags := ObjectFlags.Container true true false,
      extra_descriptions := [] }).1

/-- A store holding two instantiated vnum-10 container objects (ids 2, 3). -/
def c8Store : EntityWorld :=
  { next_id := 4, world_id := 0,
    entities :=
      [{ id := 2, parent := 0, components := chestComponents, leads_to := none },
       { id := 3, parent := 0, components := chestComponents, leads_to := none }],
    landmarks := [] }

/-- A template table holding only an object template for vnum 1. -/
def c8Templates : VnumTemplates :=
  { vnum_to_room_entity := [], vnum_to_mobprog := [],
    object_components := [none, some (importObjectComponents c6Object)],
    mobile_components := [] }

/-- The state after a put command into container vnum 10. -/
def c8PutState : ResetState :=
  (runResetCommand [] c8Templates (c8Store, none)
    (ResetCommand.Put 1 0 10 0)).getD (c8Store, none)

/-- One area whose reset list begins with a give command (no mobile spawned
before it). -/
def c9Areas : List (AreaData × List ResetCommand) :=
  [({ name := "midgaard", vnums := (0, 100), credits := "anon" },
    [ResetCommand.Give 1 0])]

/-- A mobile declaring a speech trigger on mobprog vnum 0, which the world
below does not define. -/
def c10Mobile : Mobile :=
  { vnum := 1, name := "wizard", short_description := "a wizard",
    long_description := "A wizard is here.", description := "An old wizard.",
    area := "midgaard", gender := Gender.Neutral, sentinel := true,
    mobprog_triggers := [(MobProgTrigger.Speech, 0)] }

/-- A world with `c10Mobile` and no mobprog records at all. -/
def c10World : World :=
  { rooms := [], objects := [], mobiles := [c10Mobile], mobprogs := [],
    shops := [], areas := [] }

/-- An object of item category "key". -/
def c7KeyObject : Object :=
  { vnum := 42, name := "rusty key", short_description := "a rusty key",
    description := "A rusty key.", area := "midgaard", cost := 1,
    item_type := "key", flags := ObjectFlags.Plain, extra_descriptions := [] }

/-! ## General lemmas about the helpers -/

theorem setOrFail_length {α : Type} {l : List α} {i : Nat} {a : α} {l' : List α}
    (h : setOrFail l i a = some l') : l'.length = l.length := by
  unfold setOrFail at h
  split at h
  · cases h
    exact List.length_set l i a
  · cases h

theorem foldlM_option_preserves {α σ : Type} {f : σ → α → Option σ} {P : σ → Prop}
    (hf : ∀ s a s', P s → f s a = some s' → P s') :
    ∀ (l : List α) (s s' : σ), P s → l.foldlM f s = some s' → P s' := by
  intro l
  induction l with
  | nil =>
    intro s s' hs h
    simp only [List.foldlM_nil, pure, Option.some.injEq] at h
    exact h ▸ hs
  | cons a rest ih =>
    intro s s' hs h
    simp only [List.foldlM_cons] at h
    obtain ⟨s₁, h₁, h₂⟩ := Option.bind_eq_some.mp h
    exact ih s₁ s' (hf s a s₁ hs h₁) h₂

/-! ## C3: the four template tables are sized to the room count -/

/-- C3: whenever the template-population phase (lines 195-239 of `import.rs`)
succeeds, all four `VnumTemplates` arrays have length equal to the number of
room records of the input world, however many objects, mobiles or mobprogs
there are. -/
theorem template_tables_sized_to_room_count (world : World) (rmap : List (Nat × Nat))
    (ew : EntityWorld) (t : VnumTemplates) (h : populateTemplates world rmap ew = some t) :
    t.vnum_to_room_entity.length = world.rooms.length ∧
    t.vnum_to_mobprog.length = world.rooms.length ∧
    t.object_components.length = world.rooms.length ∧
    t.mobile_components.length = world.rooms.length := by
  unfold populateTemplates at h
  obtain ⟨rt, hrt, h⟩ := Option.bind_eq_some.mp h
  obtain ⟨ot, hot, h⟩ := Option.bind_eq_some.mp h
  obtain ⟨mt, hmt, h⟩ := Option.bind_eq_some.mp h
  obtain ⟨pt, hpt, h⟩ := Option.bind_eq_some.mp h
  cases h
  refine ⟨?_, ?_, ?_, ?_⟩
  · refine foldlM_option_preserves (P := fun l => l.length = world.rooms.length)
      ?_ world.rooms _ rt (by simp) hrt
    intro s room s' hs hstep
    split at hstep
    · obtain ⟨rid, _, hstep⟩ := Option.bind_eq_some.mp hstep
      obtain ⟨e, _, hstep⟩ := Option.bind_eq_some.mp hstep
      exact (setOrFail_length hstep).trans hs
    · cases hstep
      exact hs
  · refine foldlM_option_preserves (P := fun l => l.length = world.rooms.length)
      ?_ world.mobprogs _ pt (by simp) hpt
    intro s mp s' hs hstep
    exact (setOrFail_length hstep).trans hs
  · refine foldlM_option_preserves (P := fun l => l.length = world.rooms.length)
      ?_ world.objects _ ot (by simp) hot
    intro s o s' hs hstep
    split at hstep
    · exact (setOrFail_length hstep).trans hs
    · cases hstep
      exact hs
  · refine foldlM_option_preserves (P := fun l => l.length = world.rooms.length)
      ?_ world.mobiles _ mt (by simp) hmt
    intro s m s' hs hstep
    split at hstep
    · obtain ⟨c, _, hstep⟩ := Option.bind_eq_some.mp hstep
      exact (setOrFail_length hstep).trans hs
    · cases hstep
      exact hs

/-- C3 witness: on `c2World` (one room, one mobprog) the phase succeeds and
all four tables have length 1. -/
theorem template_tables_sized_to_room_count_witness :
    populateTemplates c2World [] testStore =
      some { vnum_to_room_entity := [none], vnum_to_mobprog := [some "say hello"],
             object_components := [none], mobile_components := [none] } ∧
    ([(none : Option PermanentEntityId)].length = c2World.rooms.length ∧
     [some "say hello"].length = c2World.rooms.length ∧
     [(none : Option (Components × List Components))].length = c2World.rooms.length ∧
     [(none : Option (Components × List Components))].length = c2World.rooms.length) := by
  constructor
  · decide
  · exact template_tables_sized_to_room_count c2World [] testStore
      { vnum_to_room_entity := [none], vnum_to_mobprog := [some "say hello"],
        object_components := [none], mobile_components := [none] } (by decide)

/-! ## C2: the vnum-0 sentinel and the template tables -/

/-- C2: evaluation at the failing input.  The room, object and mobile
population loops guard on `vnum != 0`, but the mobprog loop (lines 237-239
of `import.rs`) does not: on a world with one vnum-0 room and one vnum-0
mobprog record, the template phase succeeds and entry 0 of the
scripted-behavior table IS populated, contradicting the invariant that vnum
0 never appears as a template key. -/
theorem mobprog_table_zero_entry_populated :
    (populateTemplates c2World [] testStore).map (fun t => t.vnum_to_mobprog) =
      some [some "say hello"] := by
  decide

/-! ## C7: the object facet derived from the item category -/

/-- C7: for every object definition, item category "key" yields an object
facet whose key-reference is the object's own vnum (container and food
false); category "container" yields the container flag true and key-reference
unset; any other category yields key-reference unset, container false, and
the food flag equal to whether the category is "food". -/
theorem object_facet_from_item_category (object : Object) :
    (object.item_type = "key" →
      (importObjectComponents object).1.object =
        some { cost := object.cost, key := some object.vnum,
               container := false, food := false }) ∧
    (object.item_type = "container" →
      (importObjectComponents object).1.object =
        some { cost := object.cost, key := none, container := true, food := false }) ∧
    (object.item_type ≠ "key" → object.item_type ≠ "container" →
      (importObjectComponents object).1.object =
        some { cost := object.cost, key := none, container := false,
               food := object.item_type == "food" }) := by
  refine ⟨fun h => ?_, fun h => ?_, fun h1 h2 => ?_⟩ <;>
    simp only [importObjectComponents, Option.some.injEq]
  · simp [h]
  · simp [h]
  · simp [beq_eq_false_iff_ne, h1, h2]

/-- C7 witness: at a concrete "key" object, the facet's key-reference is the
object's own vnum 42. -/
theorem object_facet_from_item_category_witness :
    c7KeyObject.item_type = "key" ∧
    (importObjectComponents c7KeyObject).1.object =
      some { cost := c7KeyObject.cost, key := some c7KeyObject.vnum,
             container := false, food := false } :=
  ⟨rfl, (object_facet_from_item_category c7KeyObject).1 rfl⟩

/-! ## C1: canonical external description from subsumed extra descriptions -/

theorem objectScan_children (object : Object) :
    ∀ (eds : List ExtraDescription) (acc : Option String × List Components),
      (eds.foldl (fun acc ed =>
        if keywordsMatch object.name ed then (some ed.description, acc.2)
        else (acc.1, acc.2 ++ [mkObjectExtraDescription object ed])) acc).2
      = acc.2 ++ (eds.filter fun ed => !keywordsMatch object.name ed).map
          (mkObjectExtraDescription object) := by
  intro eds
  induction eds with
  | nil => intro acc; simp
  | cons ed rest ih =>
    intro acc
    rw [List.foldl_cons, List.filter_cons]
    cases h : keywordsMatch object.name ed with
    | true => simp [h, ih]
    | false => simp [h, ih]

theorem objectScan_main (object : Object) :
    ∀ (eds : List ExtraDescription) (acc : Option String × List Components),
      (eds.foldl (fun acc ed =>
        if keywordsMatch object.name ed then (some ed.description, acc.2)
        else (acc.1, acc.2 ++ [mkObjectExtraDescription object ed])) acc).1
      = match (eds.filter fun ed => keywordsMatch object.name ed).getLast? with
        | some ed => some ed.description
        | none => acc.1 := by
  intro eds
  induction eds with
  | nil => intro acc; simp
  | cons ed rest ih =>
    intro acc
    rw [List.foldl_cons, List.filter_cons]
    cases h : keywordsMatch object.name ed with
    | true =>
      simp only [h, if_true, ih, List.getLast?_cons]
      cases hl : (rest.filter fun ed => keywordsMatch object.name ed).getLast? with
      | none => simp
      | some e => simp
    | false => simp [h, ih]

/-- C1 (amended): for every nonzero-vnum object, each extra-description
record whose keyword token set is entirely contained in the object's keyword
token set is diverted into the object's canonical external description with
the LAST such matching record winning (matching records produce no child
bundle); every non-matching record becomes an ordinary extra-description
child bundle; with no matching record the external description falls back to
the object's own description. -/
theorem object_main_description_last_match (object : Object) (hv : object.vnum ≠ 0) :
    ((importObjectComponents object).1.descriptions.external =
      match (object.extra_descriptions.filter fun ed =>
          keywordsMatch object.name ed).getLast? with
      | some ed => ed.description
      | none => object.description) ∧
    (importObjectComponents object).2 =
      (object.extra_descriptions.filter fun ed => !keywordsMatch object.name ed).map
        (mkObjectExtraDescription object) := by
  constructor
  · show (match (object.extra_descriptions.foldl _ (none, [])).1 with
      | some description => description
      | none => object.description) = _
    rw [objectScan_main object object.extra_descriptions (none, [])]
    cases hl : (object.extra_descriptions.filter fun ed =>
        keywordsMatch object.name ed).getLast? with
    | none => simp
    | some e => simp
  · exact objectScan_children object object.extra_descriptions (none, [])

/-- C1 counterexample: the claim's "first match wins" fails on the code.  On
`c1Object` (keywords "long sword") the FIRST matching extra description is
the one keyed "sword" with text "An old blade.", yet the object's external
description is not that text (the LAST matching record, keyed "long", wins). -/
theorem object_main_description_first_match_false :
    (c1Object.extra_descriptions.filter fun ed =>
        keywordsMatch c1Object.name ed).head? =
      some { keyword := "sword", description := "An old blade." } ∧
    (importObjectComponents c1Object).1.descriptions.external = "A very long blade." ∧
    (importObjectComponents c1Object).1.descriptions.external ≠ "An old blade." := by
  refine ⟨by decide, by decide, by decide⟩

/-- C1 witness: the amended claim applied to `c1Object`: the last matching
record ("long") wins and only the non-matching record ("rust") becomes a
child bundle. -/
theorem object_main_description_last_match_witness :
    c1Object.vnum ≠ 0 ∧
    (((importObjectComponents c1Object).1.descriptions.external =
      match (c1Object.extra_descriptions.filter fun ed =>
          keywordsMatch c1Object.name ed).getLast? with
      | some ed => ed.description
      | none => c1Object.description) ∧
    (importObjectComponents c1Object).2 =
      (c1Object.extra_descriptions.filter fun ed => !keywordsMatch c1Object.name ed).map
        (mkObjectExtraDescription c1Object)) :=
  ⟨by decide, object_main_description_last_match c1Object (by decide)⟩

/-! ## C10: a trigger naming a missing mobprog aborts the import -/

theorem mapOptionAll_eq_none {α β : Type} {f : α → Option β} {a : α} :
    ∀ {l : List α}, a ∈ l → f a = none → mapOptionAll f l = none := by
  intro l
  induction l with
  | nil => intro ha; cases ha
  | cons b rest ih =>
    intro ha hfa
    rcases List.mem_cons.mp ha with rfl | hmem
    · simp [mapOptionAll, hfa]
    · unfold mapOptionAll
      cases hfb : f b
      · rfl
      · simp [ih hmem hfa]

theorem mapOptionAll_mem {α β : Type} {f : α → Option β} :
    ∀ {l : List α} {bl : List β}, mapOptionAll f l = some bl →
      ∀ b ∈ bl, ∃ a ∈ l, f a = some b := by
  intro l
  induction l with
  | nil =>
    intro bl h b hb
    simp only [mapOptionAll, Option.some.injEq] at h
    subst h
    cases hb
  | cons a rest ih =>
    intro bl h b hb
    unfold mapOptionAll at h
    cases hfa : f a with
    | none => rw [hfa] at h; cases h
    | some b0 =>
      rw [hfa] at h
      cases hrest : mapOptionAll f rest with
      | none => rw [hrest] at h; cases h
      | some bl0 =>
        rw [hrest] at h
        simp only [Option.map_some', Option.some.injEq] at h
        subst h
        rcases List.mem_cons.mp hb with rfl | hb'
        · exact ⟨a, List.mem_cons_self a rest, hfa⟩
        · obtain ⟨a', ha', hfa'⟩ := ih hrest b hb'
          exact ⟨a', List.mem_cons_of_mem a ha', hfa'⟩

theorem importMobileComponents_eq_none {mobile : Mobile} {world : World}
    {trig : MobProgTrigger} {v : Vnum}
    (htrig : (trig, v) ∈ mobile.mobprog_triggers)
    (hmissing : world.mobprogs.get? v = none) :
    importMobileComponents mobile world = none := by
  have hnone : mapOptionAll
      (fun tv => (world.mobprogs.get? tv.2).map fun mp => mkMobProgComponents mobile tv.1 mp)
      mobile.mobprog_triggers = none :=
    mapOptionAll_eq_none htrig
      (by show (world.mobprogs.get? v).map _ = none; rw [hmissing]; rfl)
  unfold importMobileComponents
  rw [hnone]

theorem foldlM_option_none {α σ : Type} {f : σ → α → Option σ} {a : α}
    (ha : ∀ s, f s a = none) :
    ∀ (l : List α), a ∈ l → ∀ s, l.foldlM f s = none := by
  intro l
  induction l with
  | nil => intro h; cases h
  | cons b rest ih =>
    intro hmem s
    rcases List.mem_cons.mp hmem with rfl | hmem'
    · simp [List.foldlM_cons, ha s]
    · simp only [List.foldlM_cons]
      cases hfb : f s b with
      | none => rfl
      | some s₁ => simp [ih hmem' s₁]

theorem populateMobileTemplates_eq_none {world : World} {mobile : Mobile}
    (hmem : mobile ∈ world.mobiles) (hv : mobile.vnum ≠ 0)
    (hnone : importMobileComponents mobile world = none)
    (t : List (Option (Components × List Components))) :
    populateMobileTemplates world t = none := by
  unfold populateMobileTemplates
  refine foldlM_option_none ?_ world.mobiles hmem t
  intro s
  simp [hv, hnone]

theorem populateTemplates_eq_none {world : World} {mobile : Mobile}
    (hmem : mobile ∈ world.mobiles) (hv : mobile.vnum ≠ 0)
    (hnone : importMobileComponents mobile world = none)
    (rmap : List (Nat × Nat)) (ew : EntityWorld) :
    populateTemplates world rmap ew = none := by
  have hmobt := populateMobileTemplates_eq_none hmem hv hnone
    (List.replicate world.rooms.length none)
  simp only [populateTemplates]
  cases h1 : populateRoomTemplates world.rooms rmap ew
      (List.replicate world.rooms.length none) with
  | none => simp
  | some rt =>
    cases h2 : populateObjectTemplates world.objects
        (List.replicate world.rooms.length none) with
    | none => simp
    | some ot => simp [hmobt]

/-- C10: a mobile carrying a (trigger, vnum) pair whose vnum has no entry in
the scripted-behavior table aborts the entire import (the `expect` at line
388 of `import.rs`); and whenever a mobile's template IS built, every
synthesized mobprog child bundle carries the real source text of a mobprog
the world defines for one of the mobile's trigger pairs — never a
placeholder. -/
theorem missing_mobprog_aborts_import (entity_world : EntityWorld) (world : World)
    (mobile : Mobile) (trig : MobProgTrigger) (v : Vnum)
    (hmem : mobile ∈ world.mobiles) (hv : mobile.vnum ≠ 0)
    (htrig : (trig, v) ∈ mobile.mobprog_triggers)
    (hmissing : world.mobprogs.get? v = none) :
    importFromWorld entity_world world = none ∧
    ∀ (m : Mobile) (w : World) (comps : Components × List Components),
      importMobileComponents m w = some comps →
      ∀ x ∈ comps.2, ∃ tv ∈ m.mobprog_triggers, ∃ mp,
        w.mobprogs.get? tv.2 = some mp ∧
        x.mobprog = some { trigger := tv.1, code := mp.code } := by
  constructor
  · have hpop := populateTemplates_eq_none hmem hv
      (importMobileComponents_eq_none htrig hmissing)
    simp only [importFromWorld]
    cases hlm : addLandmarks
        (resolveExits (buildRooms world entity_world).ew
          (buildRooms world entity_world).exit_leads_to
          (buildRooms world entity_world).room_vnum_to_id)
        (buildRooms world entity_world).room_vnum_to_id with
    | none => simp
    | some ew₁ => simp [hpop]
  · intro m w comps hc x hx
    unfold importMobileComponents at hc
    cases hmap : mapOptionAll
        (fun tv => (w.mobprogs.get? tv.2).map fun mp => mkMobProgComponents m tv.1 mp)
        m.mobprog_triggers with
    | none => rw [hmap] at hc; cases hc
    | some mobprogs =>
      rw [hmap] at hc
      cases hc
      obtain ⟨tv, htv, hftv⟩ := mapOptionAll_mem hmap x hx
      obtain ⟨mp, hmp, hmk⟩ := Option.map_eq_some'.mp hftv
      exact ⟨tv, htv, mp, hmp, by rw [← hmk]; rfl⟩

/-- C10 witness: on a world whose only mobile declares a speech trigger on
mobprog vnum 0 and which defines no mobprogs at all, the import aborts. -/
theorem missing_mobprog_aborts_import_witness :
    importFromWorld testStore c10World = none :=
  (missing_mobprog_aborts_import testStore c10World c10Mobile MobProgTrigger.Speech 0
    (by decide) (by decide) (by decide) (by decide)).1

/-! ## C9: give/equip before any spawn in an area's run is fatal -/

theorem runResetCommand_preserves_unset_cursor {rmap : List (Nat × Nat)}
    {t : VnumTemplates} {ew : EntityWorld} {x : ResetCommand} {st' : ResetState}
    (hx : isMobCommand x = false)
    (h : runResetCommand rmap t (ew, none) x = some st') : st'.2 = none := by
  cases x with
  | Mob m gl r rl => simp [isMobCommand] at hx
  | Object o gl r =>
    obtain ⟨rid, _, h⟩ := Option.bind_eq_some.mp h
    obtain ⟨l, _, h⟩ := Option.bind_eq_some.mp h
    cases h
    rfl
  | Door r d s => cases h; rfl
  | Give o gl => cases h
  | Equip o gl loc => cases h
  | Put o gl c cl =>
    rw [show runResetCommand rmap t (ew, none) (ResetCommand.Put o gl c cl) =
      (match ew.entities.find? (fun e => e.components.general.vnum == c && e.isObject) with
       | some container => do
           let loaded ← loadObject o container.id t ew
           some (loaded.1, none)
       | none => some (ew, none)) from rfl] at h
    cases hf : (ew.entities.find? fun e =>
        e.components.general.vnum == c && e.isObject) with
    | some cont =>
      rw [hf] at h
      obtain ⟨l, _, h⟩ := Option.bind_eq_some.mp h
      cases h
      rfl
    | none =>
      rw [hf] at h
      cases h
      rfl

theorem runResetCommand_unset_cursor_give_equip {rmap : List (Nat × Nat)}
    {t : VnumTemplates} {ew : EntityWorld} {cmd : ResetCommand}
    (hcmd : isGiveOrEquipCommand cmd = true) :
    runResetCommand rmap t (ew, none) cmd = none := by
  cases cmd with
  | Give o gl => rfl
  | Equip o gl loc => rfl
  | Mob m gl r rl => simp [isGiveOrEquipCommand] at hcmd
  | Object o gl r => simp [isGiveOrEquipCommand] at hcmd
  | Door r d s => simp [isGiveOrEquipCommand] at hcmd
  | Put o gl c cl => simp [isGiveOrEquipCommand] at hcmd

theorem foldlM_no_mob_cursor {rmap : List (Nat × Nat)} {t : VnumTemplates} :
    ∀ (pre : List ResetCommand), (∀ x ∈ pre, isMobCommand x = false) →
      ∀ ew : EntityWorld,
        pre.foldlM (runResetCommand rmap t) (ew, none) = none ∨
        ∃ ew', pre.foldlM (runResetCommand rmap t) (ew, none) = some (ew', none) := by
  intro pre
  induction pre with
  | nil => intro _ ew; exact Or.inr ⟨ew, rfl⟩
  | cons x rest ih =>
    intro hpre ew
    have hx : isMobCommand x = false := hpre x (List.mem_cons_self x rest)
    have hrest : ∀ y ∈ rest, isMobCommand y = false :=
      fun y hy => hpre y (List.mem_cons_of_mem x hy)
    cases hstep : runResetCommand rmap t (ew, none) x with
    | none => exact Or.inl (by simp [List.foldlM_cons, hstep])
    | some st₁ =>
      have hc : st₁.2 = none := runResetCommand_preserves_unset_cursor hx hstep
      have hst : st₁ = (st₁.1, none) := by
        cases st₁
        simp_all
      rcases ih hrest st₁.1 with hn | ⟨ew', he⟩
      · exact Or.inl (by simp only [List.foldlM_cons, hstep]; rw [← hst] at hn; simpa using hn)
      · refine Or.inr ⟨ew', ?_⟩
        simp only [List.foldlM_cons, hstep]
        rw [← hst] at he
        simpa using he

theorem runArea_give_before_mob_eq_none (rmap : List (Nat × Nat)) (t : VnumTemplates)
    (pre : List ResetCommand) (cmd : ResetCommand) (post : List ResetCommand)
    (ew : EntityWorld)
    (hpre : ∀ x ∈ pre, isMobCommand x = false)
    (hcmd : isGiveOrEquipCommand cmd = true) :
    runArea rmap t (pre ++ cmd :: post) ew = none := by
  unfold runArea
  rw [List.foldlM_append]
  rcases foldlM_no_mob_cursor pre hpre ew with h | ⟨ew', h⟩
  · rw [h]; rfl
  · rw [h]
    show (cmd :: post).foldlM (runResetCommand rmap t) (ew', none) = none
    simp [List.foldlM_cons, runResetCommand_unset_cursor_give_equip hcmd]

/-- C9: the last-spawned-mobile cursor is unset at the start of every area's
reset run, and a give/equip command reached with the cursor still unset (no
mob command earlier in that same area's list, whatever earlier areas did)
aborts the whole reset phase (`unwrap`, lines 278/286 of `import.rs`). -/
theorem give_before_spawn_aborts_import (rmap : List (Nat × Nat)) (t : VnumTemplates)
    (areas : List (AreaData × List ResetCommand)) (ew : EntityWorld) (ad : AreaData)
    (pre : List ResetCommand) (cmd : ResetCommand) (post : List ResetCommand)
    (hmem : (ad, pre ++ cmd :: post) ∈ areas)
    (hpre : ∀ x ∈ pre, isMobCommand x = false)
    (hcmd : isGiveOrEquipCommand cmd = true) :
    runResets rmap t areas ew = none := by
  have key : ∀ (l : List (AreaData × List ResetCommand)) (ew : EntityWorld),
      (ad, pre ++ cmd :: post) ∈ l →
      l.foldlM (fun ew area => (runArea rmap t area.2 ew).map Prod.fst) ew = none := by
    intro l
    induction l with
    | nil => intro ew h; cases h
    | cons a rest ih =>
      intro ew hmem'
      rcases List.mem_cons.mp hmem' with heq | hmem''
      · subst heq
        simp [List.foldlM_cons,
          runArea_give_before_mob_eq_none rmap t pre cmd post ew hpre hcmd]
      · simp only [List.foldlM_cons]
        cases hra : runArea rmap t a.2 ew with
        | none => rfl
        | some st => simp [ih st.1 hmem'']
  exact key areas ew hmem

/-- C9 witness: one area whose reset list is just a give command: the whole
reset phase aborts. -/
theorem give_before_spawn_aborts_import_witness :
    runResets [] emptyTemplates c9Areas testStore = none :=
  give_before_spawn_aborts_import [] emptyTemplates c9Areas testStore
    { name := "midgaard", vnums := (0, 100), credits := "anon" }
    [] (ResetCommand.Give 1 0) []
    (by decide) (by decide) (by decide)

/-! ## Lemmas about the entity store -/

theorem storeWF_insertEntity {ew : EntityWorld} {p : EntityId} {c : Components}
    (h : storeWF ew) : storeWF (ew.insertEntity p c).1 := by
  intro e he
  rcases List.mem_append.mp he with he | he
  · exact Nat.lt_succ_of_lt (h e he)
  · rcases List.mem_singleton.mp he with rfl
    exact Nat.lt_succ_self _

theorem entityInfo_insertEntity_of_some {ew : EntityWorld} {p : EntityId} {c : Components}
    {i : EntityId} {e : Entity} (h : ew.entityInfo i = some e) :
    (ew.insertEntity p c).1.entityInfo i = some e := by
  show List.find? (fun e : Entity => e.id == i)
      (ew.entities ++ [{ id := ew.next_id, parent := p, components := c, leads_to := none }]) =
    some e
  rw [List.find?_append,
    show List.find? (fun e : Entity => e.id == i) ew.entities = some e from h]
  rfl

theorem entityInfo_insertEntity_new {ew : EntityWorld} {p : EntityId} {c : Components}
    (h : storeWF ew) :
    (ew.insertEntity p c).1.entityInfo ew.next_id =
      some { id := ew.next_id, parent := p, components := c, leads_to := none } := by
  unfold EntityWorld.entityInfo EntityWorld.insertEntity
  rw [List.find?_append]
  have hnone : (List.find? (fun e => e.id == ew.next_id) ew.entities) = none := by
    rw [List.find?_eq_none]
    intro x hx
    simp [Nat.ne_of_lt (h x hx)]
  rw [hnone]
  simp [List.find?, Option.or]

theorem entityInfo_id {ew : EntityWorld} {i : EntityId} {e : Entity}
    (h : ew.entityInfo i = some e) : e.id = i := by
  have := List.find?_some h
  simpa using this

theorem foldlInsert_entityInfo {α : Type} {parent : EntityId} {g : α → Components} :
    ∀ {l : List α} {ew : EntityWorld} {i : EntityId} {e : Entity},
      ew.entityInfo i = some e →
      (l.foldl (fun ew a => (ew.insertEntity parent (g a)).1) ew).entityInfo i = some e := by
  intro l
  induction l with
  | nil => intro ew i e h; exact h
  | cons c rest ih =>
    intro ew i e h
    exact ih (entityInfo_insertEntity_of_some h)

theorem foldlInsert_storeWF {α : Type} {parent : EntityId} {g : α → Components} :
    ∀ {l : List α} {ew : EntityWorld}, storeWF ew →
      storeWF (l.foldl (fun ew a => (ew.insertEntity parent (g a)).1) ew) := by
  intro l
  induction l with
  | nil => intro ew h; exact h
  | cons c rest ih => intro ew h; exact ih (storeWF_insertEntity h)

theorem loadObject_spec {v : Vnum} {cont : EntityId} {t : VnumTemplates}
    {ew ew' : EntityWorld} {oid : EntityId} {tpl : Components × List Components}
    (htpl : t.object_components.get? v = some (some tpl))
    (hwf : storeWF ew)
    (h : loadObject v cont t ew = some (ew', oid)) :
    oid = ew.next_id ∧
    ew'.entityInfo ew.next_id =
      some { id := ew.next_id, parent := cont, components := tpl.1, leads_to := none } ∧
    storeWF ew' := by
  unfold loadObject at h
  rw [htpl] at h
  simp only [Option.some.injEq, Prod.mk.injEq] at h
  obtain ⟨hew, hoid⟩ := h
  refine ⟨hoid ▸ rfl, ?_, ?_⟩
  · rw [← hew]
    exact foldlInsert_entityInfo (entityInfo_insertEntity_new hwf)
  · rw [← hew]
    exact foldlInsert_storeWF (storeWF_insertEntity hwf)

theorem entityInfo_setEquipped {ew : EntityWorld} {j : EntityId} {loc : String}
    {i : EntityId} :
    (ew.setEquipped j loc).entityInfo i =
      (ew.entityInfo i).map fun e =>
        if e.id = j then
          { e with components :=
              { e.components with general := { e.components.general with equipped := some loc } } }
        else e := by
  unfold EntityWorld.entityInfo EntityWorld.setEquipped
  rw [List.find?_map]
  congr 2
  funext e
  dsimp [Function.comp]
  split <;> rfl

/-! ## C6: equip sets the slot, give copies the template -/

/-- C6: with the object template for vnum `o` present, an
equip-object-on-last-mobile command creates a new object instance whose
equip-slot attribute is exactly the command's literal slot value, while a
give-object-to-last-mobile command for the same vnum creates an instance
whose bundle is the template's, bit for bit — and every template built by
`import_object_components` has the equip-slot attribute unset. -/
theorem equip_sets_slot_give_copies_template
    (rmap : List (Nat × Nat)) (t : VnumTemplates) (ew : EntityWorld) (lm : EntityId)
    (o : Vnum) (gl : Nat) (loc : String) (tpl : Components × List Components)
    (st₁ st₂ : ResetState) (hwf : storeWF ew)
    (htpl : t.object_components.get? o = some (some tpl)) :
    (runResetCommand rmap t (ew, some lm) (ResetCommand.Equip o gl loc) = some st₁ →
      st₁.1.entityInfo ew.next_id =
        some { id := ew.next_id, parent := lm,
               components :=
                 { tpl.1 with general := { tpl.1.general with equipped := some loc } },
               leads_to := none }) ∧
    (runResetCommand rmap t (ew, some lm) (ResetCommand.Give o gl) = some st₂ →
      st₂.1.entityInfo ew.next_id =
        some { id := ew.next_id, parent := lm, components := tpl.1, leads_to := none }) ∧
    ∀ object : Object, (importObjectComponents object).1.general.equipped = none := by
  refine ⟨fun h => ?_, fun h => ?_, fun object => rfl⟩
  · obtain ⟨loaded, hload, h⟩ := Option.bind_eq_some.mp h
    cases h
    obtain ⟨hoid, hinfo, _⟩ := loadObject_spec htpl hwf
      (show loadObject o lm t ew = some (loaded.1, loaded.2) from hload)
    show (loaded.1.setEquipped loaded.2 loc).entityInfo ew.next_id = _
    rw [entityInfo_setEquipped, hinfo, ← hoid]
    simp
  · obtain ⟨loaded, hload, h⟩ := Option.bind_eq_some.mp h
    cases h
    obtain ⟨_, hinfo, _⟩ := loadObject_spec htpl hwf
      (show loadObject o lm t ew = some (loaded.1, loaded.2) from hload)
    exact hinfo

/-- C6 witness: running the equip and give commands for object vnum 1
against concrete inputs, the equip instance carries slot "torso" and the
give instance carries the template bundle unchanged (equip slot unset). -/
theorem equip_sets_slot_give_copies_template_witness :
    (runResetCommand [] c6Templates (testStore, some 0)
        (ResetCommand.Equip 1 0 "torso") = some c6EquipState ∧
      c6EquipState.1.entityInfo testStore.next_id =
        some { id := testStore.next_id, parent := 0,
               components :=
                 { (importObjectComponents c6Object).1 with general :=
                     { (importObjectComponents c6Object).1.general with
                         equipped := some "torso" } },
               leads_to := none }) ∧
    (runResetCommand [] c6Templates (testStore, some 0)
        (ResetCommand.Give 1 0) = some c6GiveState ∧
      c6GiveState.1.entityInfo testStore.next_id =
        some { id := testStore.next_id, parent := 0,
               components := (importObjectComponents c6Object).1, leads_to := none }) := by
  refine ⟨⟨by decide, ?_⟩, ⟨by decide, ?_⟩⟩
  · exact (equip_sets_slot_give_copies_template [] c6Templates testStore 0 1 0 "torso"
      (importObjectComponents c6Object) c6EquipState c6GiveState
      (by decide) (by decide)).1 (by decide)
  · exact (equip_sets_slot_give_copies_template [] c6Templates testStore 0 1 0 "torso"
      (importObjectComponents c6Object) c6EquipState c6GiveState
      (by decide) (by decide)).2.1 (by decide)

/-! ## C8: the put command's container search -/

/-- C8: a put-object-in-container command whose container vnum matches no
object-kind entity leaves the store exactly as it was and reports no error
(the command yields `some` with zero new entities); when a match exists, the
first match in the entity enumeration becomes the new instance's parent. -/
theorem put_command_container_search
    (rmap : List (Nat × Nat)) (t : VnumTemplates) (ew : EntityWorld)
    (lm : Option EntityId) (o : Vnum) (gl : Nat) (c : Vnum) (cl : Nat)
    (hwf : storeWF ew) :
    ((ew.entities.find? fun e => e.components.general.vnum == c && e.isObject) = none →
      runResetCommand rmap t (ew, lm) (ResetCommand.Put o gl c cl) = some (ew, lm)) ∧
    (∀ cont tpl st',
      (ew.entities.find? fun e => e.components.general.vnum == c && e.isObject) = some cont →
      t.object_components.get? o = some (some tpl) →
      runResetCommand rmap t (ew, lm) (ResetCommand.Put o gl c cl) = some st' →
      st'.1.entityInfo ew.next_id =
        some { id := ew.next_id, parent := cont.id, components := tpl.1,
               leads_to := none }) := by
  have hdef : runResetCommand rmap t (ew, lm) (ResetCommand.Put o gl c cl) =
      (match ew.entities.find? (fun e => e.components.general.vnum == c && e.isObject) with
       | some container => do
           let loaded ← loadObject o container.id t ew
           some (loaded.1, lm)
       | none => some (ew, lm)) := rfl
  constructor
  · intro hf
    rw [hdef, hf]
  · intro cont tpl st' hf htpl h
    rw [hdef, hf] at h
    obtain ⟨loaded, hload, h⟩ := Option.bind_eq_some.mp h
    cases h
    obtain ⟨_, hinfo, _⟩ := loadObject_spec htpl hwf
      (show loadObject o cont.id t ew = some (loaded.1, loaded.2) from hload)
    exact hinfo

/-- C8 witness: with no vnum-99 object the put command is a silent no-op;
with two vnum-10 containers (ids 2 then 3) the new instance's parent is the
first one found, id 2. -/
theorem put_command_container_search_witness :
    (runResetCommand [] c8Templates (c8Store, none)
      (ResetCommand.Put 1 0 99 0) = some (c8Store, none)) ∧
    c8PutState.1.entityInfo c8Store.next_id =
      some { id := c8Store.next_id, parent := 2,
             components := (importObjectComponents c6Object).1, leads_to := none } := by
  constructor
  · exact (put_command_container_search [] c8Templates c8Store none 1 0 99 0
      (by decide)).1 (by decide)
  · have h := (put_command_container_search [] c8Templates c8Store none 1 0 10 0
      (by decide)).2
        { id := 2, parent := 0, components := chestComponents, leads_to := none }
        (importObjectComponents c6Object) c8PutState (by decide) (by decide) (by decide)
    simpa using h

/-! ## C5: mobile counts under a room follow the Mob commands, limits ignored -/

theorem countMobiles_insertEntity (ew : EntityWorld) (p : EntityId) (c : Components)
    (pid : EntityId) (m : Vnum) :
    countMobiles (ew.insertEntity p c).1 pid m =
      countMobiles ew pid m +
        (if p == pid && c.general.entity_type == EntityType.Mobile &&
            c.general.vnum == m then 1 else 0) := by
  unfold countMobiles EntityWorld.insertEntity
  rw [List.filter_append, List.length_append]
  congr 1
  rw [List.filter_cons]
  dsimp only
  split <;> simp

theorem countMobiles_foldlInsert_nonmobile {parent : EntityId} :
    ∀ {l : List Components}, (∀ x ∈ l, x.general.entity_type ≠ EntityType.Mobile) →
      ∀ (ew : EntityWorld) (pid : EntityId) (m : Vnum),
        countMobiles (l.foldl (fun ew c => (ew.insertEntity parent c).1) ew) pid m =
          countMobiles ew pid m := by
  intro l
  induction l with
  | nil => intro _ ew pid m; rfl
  | cons c rest ih =>
    intro hl ew pid m
    have hc : (c.general.entity_type == EntityType.Mobile) = false := by
      simp [hl c (List.mem_cons_self c rest)]
    rw [List.foldl_cons, ih (fun x hx => hl x (List.mem_cons_of_mem c hx)),
      countMobiles_insertEntity]
    simp [hc]

theorem countMobiles_setEquipped (ew : EntityWorld) (j : EntityId) (loc : String)
    (pid : EntityId) (m : Vnum) :
    countMobiles (ew.setEquipped j loc) pid m = countMobiles ew pid m := by
  unfold countMobiles EntityWorld.setEquipped
  rw [List.filter_map, List.length_map]
  congr 1
  have : ((fun e : Entity =>
      e.parent == pid && e.components.general.entity_type == EntityType.Mobile &&
        e.components.general.vnum == m) ∘ (fun e : Entity =>
      if e.id = j then
        { e with components :=
            { e.components with general := { e.components.general with equipped := some loc } } }
      else e)) = fun e : Entity =>
      e.parent == pid && e.components.general.entity_type == EntityType.Mobile &&
        e.components.general.vnum == m := by
    funext e
    dsimp [Function.comp]
    split <;> rfl
  rw [this]

theorem countMobiles_loadObject {v : Vnum} {cont : EntityId} {t : VnumTemplates}
    {ew ew' : EntityWorld} {oid : EntityId} {pid : EntityId} {m : Vnum}
    (hWFo : objectTemplatesWF t) (h : loadObject v cont t ew = some (ew', oid)) :
    countMobiles ew' pid m = countMobiles ew pid m := by
  unfold loadObject at h
  cases hget : t.object_components.get? v with
  | none => rw [hget] at h; cases h
  | some oo =>
    cases oo with
    | none => rw [hget] at h; cases h
    | some comps =>
      rw [hget] at h
      simp only [Option.some.injEq, Prod.mk.injEq] at h
      obtain ⟨hew, _⟩ := h
      obtain ⟨hlt, hgetf⟩ := List.get?_eq_some.mp hget
      have hok := hWFo v hlt
      rw [hgetf] at hok
      simp only [objTemplateOK, Bool.and_eq_true, List.all_eq_true, bne_iff_ne,
        ne_eq] at hok
      rw [← hew,
        countMobiles_foldlInsert_nonmobile (fun x hx => hok.2 x hx),
        countMobiles_insertEntity]
      have : (comps.1.general.entity_type == EntityType.Mobile) = false := by
        simp [hok.1]
      simp [this]

theorem countMobiles_runResetCommand {rmap : List (Nat × Nat)} {t : VnumTemplates}
    {st st' : ResetState} {cmd : ResetCommand}
    (hWFm : mobileTemplatesWF t) (hWFo : objectTemplatesWF t)
    (h : runResetCommand rmap t st cmd = some st') (pid : EntityId) (m : Vnum) :
    countMobiles st'.1 pid m =
      countMobiles st.1 pid m +
        (if countedMobCommand rmap pid m cmd then 1 else 0) := by
  cases cmd with
  | Mob m' gl r' rl =>
    obtain ⟨q, hq, h⟩ := Option.bind_eq_some.mp h
    cases hget : t.mobile_components.get? m' with
    | none => rw [hget] at h; cases h
    | some oo =>
      cases oo with
      | none => rw [hget] at h; cases h
      | some mc =>
        rw [hget] at h
        cases h
        obtain ⟨hlt, hgetf⟩ := List.get?_eq_some.mp hget
        have hok := hWFm m' hlt
        rw [hgetf] at hok
        simp only [mobTemplateOK, Bool.and_eq_true, List.all_eq_true, bne_iff_ne,
          ne_eq, beq_iff_eq] at hok
        show countMobiles (mc.2.foldl _ ((st.1.insertEntity q mc.1).1)) pid m = _
        rw [countMobiles_foldlInsert_nonmobile (fun x hx => hok.2 x hx),
          countMobiles_insertEntity]
        have htype : (mc.1.general.entity_type == EntityType.Mobile) = true := by
          simp [hok.1.1]
        have hvnum : mc.1.general.vnum = m' := hok.1.2
        congr 1
        simp only [countedMobCommand, hq, htype, hvnum]
        cases hpq : q == pid <;> cases hmm : m' == m <;>
          simp [hpq, hmm]
  | Object o gl r' =>
    obtain ⟨q, hq, h⟩ := Option.bind_eq_some.mp h
    obtain ⟨loaded, hload, h⟩ := Option.bind_eq_some.mp h
    cases h
    rw [countMobiles_loadObject hWFo
      (show loadObject o q t st.1 = some (loaded.1, loaded.2) from hload)]
    simp [countedMobCommand]
  | Door r' d s =>
    cases h
    simp [countedMobCommand]
  | Give o gl =>
    obtain ⟨lm, hlm, h⟩ := Option.bind_eq_some.mp h
    obtain ⟨loaded, hload, h⟩ := Option.bind_eq_some.mp h
    cases h
    rw [countMobiles_loadObject hWFo
      (show loadObject o lm t st.1 = some (loaded.1, loaded.2) from hload)]
    simp [countedMobCommand]
  | Equip o gl loc =>
    obtain ⟨lm, hlm, h⟩ := Option.bind_eq_some.mp h
    obtain ⟨loaded, hload, h⟩ := Option.bind_eq_some.mp h
    cases h
    show countMobiles (loaded.1.setEquipped loaded.2 loc) pid m = _
    rw [countMobiles_setEquipped, countMobiles_loadObject hWFo
      (show loadObject o lm t st.1 = some (loaded.1, loaded.2) from hload)]
    simp [countedMobCommand]
  | Put o gl c cl =>
    have hdef : runResetCommand rmap t st (ResetCommand.Put o gl c cl) =
        (match st.1.entities.find? (fun e => e.components.general.vnum == c && e.isObject) with
         | some container => do
             let loaded ← loadObject o container.id t st.1
             some (loaded.1, st.2)
         | none => some st) := rfl
    rw [hdef] at h
    cases hf : st.1.entities.find? (fun e => e.components.general.vnum == c && e.isObject) with
    | some cont =>
      rw [hf] at h
      obtain ⟨loaded, hload, h⟩ := Option.bind_eq_some.mp h
      cases h
      rw [countMobiles_loadObject hWFo
        (show loadObject o cont.id t st.1 = some (loaded.1, loaded.2) from hload)]
      simp [countedMobCommand]
    | none =>
      rw [hf] at h
      cases h
      simp [countedMobCommand]

/-- C5: over one area's reset run, the number of mobile entities of vnum `m`
instantiated directly under entity `pid` grows by exactly the number of
place-mobile-in-room commands naming mobile vnum `m` and a room vnum mapped
to `pid` — the commands' global-limit and room-limit fields (arbitrary here)
never constrain the count. -/
theorem mobile_count_matches_reset_commands (rmap : List (Nat × Nat)) (t : VnumTemplates)
    (resets : List ResetCommand) (ew : EntityWorld) (st' : ResetState)
    (hWFm : mobileTemplatesWF t) (hWFo : objectTemplatesWF t)
    (h : runArea rmap t resets ew = some st') (pid : EntityId) (m : Vnum) :
    countMobiles st'.1 pid m =
      countMobiles ew pid m + countMobCommands rmap pid m resets := by
  have aux : ∀ (l : List ResetCommand) (st st' : ResetState),
      l.foldlM (runResetCommand rmap t) st = some st' →
      countMobiles st'.1 pid m = countMobiles st.1 pid m + countMobCommands rmap pid m l := by
    intro l
    induction l with
    | nil =>
      intro st st' h
      simp only [List.foldlM_nil, pure, Option.some.injEq] at h
      subst h
      simp [countMobCommands]
    | cons cmdx rest ih =>
      intro st st' h
      simp only [List.foldlM_cons] at h
      obtain ⟨st₁, h₁, h₂⟩ := Option.bind_eq_some.mp h
      rw [ih st₁ st' h₂, countMobiles_runResetCommand hWFm hWFo h₁ pid m]
      unfold countMobCommands
      rw [List.filter_cons]
      cases hp : countedMobCommand rmap pid m cmdx <;> simp [hp] <;> omega
  exact aux resets (ew, none) st' h

/-- C5 witness: one Mob command (with nonzero limit fields 2 and 3) for
mobile vnum 1 in room entity 9 yields exactly one mobile under entity 9. -/
theorem mobile_count_matches_reset_commands_witness :
    runArea c5Rmap c5Templates c5Commands testStore = some c5State ∧
    countMobiles c5State.1 9 1 =
      countMobiles testStore 9 1 + countMobCommands c5Rmap 9 1 c5Commands := by
  constructor
  · decide
  · exact mobile_count_matches_reset_commands c5Rmap c5Templates c5Commands testStore
      c5State (by decide) (by decide) (by decide) 9 1

/-! ## C4: exit resolution -/

theorem hmLookup_hmInsert (m : List (Nat × Nat)) (k v k' : Nat) :
    hmLookup (hmInsert m k v) k' = if k' = k then some v else hmLookup m k' := by
  unfold hmLookup hmInsert
  rw [List.find?_cons]
  by_cases h : k' = k
  · subst h
    simp
  · have hk : (( (k, v) : Nat × Nat).1 == k') = false := by
      simp [Ne.symm h]
    rw [hk]
    simp only [if_neg h]
    congr 1
    induction m with
    | nil => rfl
    | cons p rest ih =>
      rw [List.filter_cons, List.find?_cons]
      by_cases hp : p.1 = k
      · have h1 : (p.1 != k) = false := by simp [hp]
        have h2 : (p.1 == k') = false := by simp [hp, Ne.symm h]
        rw [h1, h2]
        simpa using ih
      · have h1 : (p.1 != k) = true := by simp [hp]
        rw [h1, if_pos rfl, List.find?_cons]
        cases hpk : p.1 == k'
        · simpa [hpk] using ih
        · simp [hpk]

theorem hmLookup_mem {m : List (Nat × Nat)} {v rid : Nat}
    (h : hmLookup m v = some rid) : (v, rid) ∈ m := by
  unfold hmLookup at h
  obtain ⟨p, hp, hmap⟩ := Option.map_eq_some'.mp h
  have hmem := List.mem_of_find?_eq_some hp
  have hpred := List.find?_some hp
  simp only [beq_iff_eq] at hpred
  have : p = (v, rid) := by
    cases p
    simp_all
  exact this ▸ hmem

theorem entityInfo_setLeadsTo {ew : EntityWorld} {j : EntityId} {r : EntityId}
    {i : EntityId} :
    (ew.setLeadsTo j r).entityInfo i =
      (ew.entityInfo i).map fun e =>
        if e.id = j then { e with leads_to := some r } else e := by
  unfold EntityWorld.entityInfo EntityWorld.setLeadsTo
  rw [List.find?_map]
  congr 2
  funext e
  dsimp [Function.comp]
  split <;> rfl

theorem foldlInsert_next_le {α : Type} {parent : EntityId} {g : α → Components} :
    ∀ {l : List α} {ew : EntityWorld},
      ew.next_id ≤ (l.foldl (fun ew a => (ew.insertEntity parent (g a)).1) ew).next_id := by
  intro l
  induction l with
  | nil => intro ew; exact Nat.le_refl _
  | cons c rest ih =>
    intro ew
    rw [List.foldl_cons]
    exact Nat.le_trans (Nat.le_succ _) (@ih (ew.insertEntity parent (g c)).1)

theorem buildRoomExitStep_foldl_spec (room : Room) (room_id : EntityId) :
    ∀ (exits : List ExitRecord) (ew : EntityWorld) (links : List (EntityId × Vnum)),
      storeWF ew →
      (∀ p ∈ links, p.1 < ew.next_id) →
      (links.map Prod.fst).Nodup →
      (∀ p ∈ links, ∃ e : Entity, ew.entityInfo p.1 = some e ∧
        e.components.general.entity_type = EntityType.Exit ∧ e.leads_to = none) →
      storeWF (exits.foldl (buildRoomExitStep room room_id) (ew, links)).1 ∧
      ew.next_id ≤ (exits.foldl (buildRoomExitStep room room_id) (ew, links)).1.next_id ∧
      (∀ (i : EntityId) (e : Entity), ew.entityInfo i = some e →
        (exits.foldl (buildRoomExitStep room room_id) (ew, links)).1.entityInfo i = some e) ∧
      (exits.foldl (buildRoomExitStep room room_id) (ew, links)).2.map Prod.snd =
        links.map Prod.snd ++ exits.map ExitRecord.vnum ∧
      (∀ p ∈ (exits.foldl (buildRoomExitStep room room_id) (ew, links)).2,
        p.1 < (exits.foldl (buildRoomExitStep room room_id) (ew, links)).1.next_id) ∧
      ((exits.foldl (buildRoomExitStep room room_id) (ew, links)).2.map Prod.fst).Nodup ∧
      (∀ p ∈ (exits.foldl (buildRoomExitStep room room_id) (ew, links)).2,
        ∃ e : Entity,
          (exits.foldl (buildRoomExitStep room room_id) (ew, links)).1.entityInfo p.1 =
            some e ∧
          e.components.general.entity_type = EntityType.Exit ∧ e.leads_to = none) := by
  intro exits
  induction exits with
  | nil =>
    intro ew links hwf hlt hnd hexit
    exact ⟨hwf, Nat.le_refl _, fun i e h => h, by simp, hlt, hnd, hexit⟩
  | cons x rest ih =>
    intro ew links hwf hlt hnd hexit
    rw [List.foldl_cons]
    have hstep : buildRoomExitStep room room_id (ew, links) x =
        ((ew.insertEntity room_id (mkExitComponents room x)).1,
          links ++ [(ew.next_id, x.vnum)]) := rfl
    rw [hstep]
    have hwf' : storeWF (ew.insertEntity room_id (mkExitComponents room x)).1 :=
      storeWF_insertEntity hwf
    have hlt' : ∀ p ∈ links ++ [(ew.next_id, x.vnum)],
        p.1 < (ew.insertEntity room_id (mkExitComponents room x)).1.next_id := by
      intro p hp
      rcases List.mem_append.mp hp with hp | hp
      · exact Nat.lt_succ_of_lt (hlt p hp)
      · rcases List.mem_singleton.mp hp with rfl
        exact Nat.lt_succ_self _
    have hnd' : ((links ++ [(ew.next_id, x.vnum)]).map Prod.fst).Nodup := by
      rw [List.map_append]
      simp only [List.map_cons, List.map_nil]
      rw [List.nodup_append]
      refine ⟨hnd, List.nodup_singleton _, ?_⟩
      intro a ha hb
      obtain ⟨p, hp, rfl⟩ := List.mem_map.mp ha
      exact Nat.ne_of_lt (hlt p hp) (List.mem_singleton.mp hb)
    have hexit' : ∀ p ∈ links ++ [(ew.next_id, x.vnum)], ∃ e : Entity,
        (ew.insertEntity room_id (mkExitComponents room x)).1.entityInfo p.1 = some e ∧
        e.components.general.entity_type = EntityType.Exit ∧ e.leads_to = none := by
      intro p hp
      rcases List.mem_append.mp hp with hp | hp
      · obtain ⟨e, he, ht, hl⟩ := hexit p hp
        exact ⟨e, entityInfo_insertEntity_of_some he, ht, hl⟩
      · rcases List.mem_singleton.mp hp with rfl
        exact ⟨{ id := ew.next_id, parent := room_id,
                 components := mkExitComponents room x, leads_to := none },
          entityInfo_insertEntity_new hwf, rfl, rfl⟩
    obtain ⟨f1, f2, f3, f4, f5, f6, f7⟩ := ih
      (ew.insertEntity room_id (mkExitComponents room x)).1
      (links ++ [(ew.next_id, x.vnum)]) hwf' hlt' hnd' hexit'
    refine ⟨f1, Nat.le_trans (Nat.le_succ _) f2,
      fun i e h => f3 i e (entityInfo_insertEntity_of_some h), ?_, f5, f6, f7⟩
    rw [f4]
    simp

theorem buildRoom_spec (st : BuildState) (room : Room) (h : buildWF st) :
    buildWF (buildRoom st room) ∧
    (∀ (i : EntityId) (e : Entity), st.ew.entityInfo i = some e →
      (buildRoom st room).ew.entityInfo i = some e) ∧
    (buildRoom st room).exit_leads_to.map Prod.snd =
      st.exit_leads_to.map Prod.snd ++ room.exits.map ExitRecord.vnum := by
  obtain ⟨hwf, hlt, hnd, hexit, hroom⟩ := h
  have hwf₁ : storeWF (st.ew.insertEntity st.ew.world_id (mkRoomComponents room)).1 :=
    storeWF_insertEntity hwf
  have hlt₁ : ∀ p ∈ st.exit_leads_to,
      p.1 < (st.ew.insertEntity st.ew.world_id (mkRoomComponents room)).1.next_id :=
    fun p hp => Nat.lt_succ_of_lt (hlt p hp)
  have hexit₁ : ∀ p ∈ st.exit_leads_to, ∃ e : Entity,
      (st.ew.insertEntity st.ew.world_id (mkRoomComponents room)).1.entityInfo p.1 =
        some e ∧
      e.components.general.entity_type = EntityType.Exit ∧ e.leads_to = none := by
    intro p hp
    obtain ⟨e, he, ht, hl⟩ := hexit p hp
    exact ⟨e, entityInfo_insertEntity_of_some he, ht, hl⟩
  obtain ⟨f1, f2, f3, f4, f5, f6, f7⟩ := buildRoomExitStep_foldl_spec room
    (st.ew.insertEntity st.ew.world_id (mkRoomComponents room)).2 room.exits
    (st.ew.insertEntity st.ew.world_id (mkRoomComponents room)).1
    st.exit_leads_to hwf₁ hlt₁ hnd hexit₁
  refine ⟨⟨foldlInsert_storeWF f1, ?_, f6, ?_, ?_⟩, ?_, f4⟩
  · intro p hp
    exact Nat.lt_of_lt_of_le (f5 p hp) foldlInsert_next_le
  · intro p hp
    obtain ⟨e, he, ht, hl⟩ := f7 p hp
    exact ⟨e, foldlInsert_entityInfo he, ht, hl⟩
  · intro kv hkv
    rcases List.mem_cons.mp hkv with rfl | hkv
    · refine ⟨{ id := st.ew.next_id, parent := st.ew.world_id,
                components := mkRoomComponents room, leads_to := none }, ?_, rfl, rfl⟩
      exact foldlInsert_entityInfo (f3 _ _ (entityInfo_insertEntity_new hwf))
    · have hkv' := List.mem_of_mem_filter hkv
      obtain ⟨e, he, ht, hv⟩ := hroom _ hkv'
      exact ⟨e, foldlInsert_entityInfo (f3 _ _ (entityInfo_insertEntity_of_some he)),
        ht, hv⟩
  · intro i e he
    exact foldlInsert_entityInfo (f3 i e (entityInfo_insertEntity_of_some he))

theorem buildRooms_foldl_spec :
    ∀ (rooms : List Room) (st : BuildState), buildWF st →
      buildWF (rooms.foldl buildRoom st) ∧
      (rooms.foldl buildRoom st).exit_leads_to.map Prod.snd =
        st.exit_leads_to.map Prod.snd ++
          rooms.flatMap (fun r => r.exits.map ExitRecord.vnum) := by
  intro rooms
  induction rooms with
  | nil => intro st h; exact ⟨h, by simp⟩
  | cons r rest ih =>
    intro st h
    rw [List.foldl_cons]
    obtain ⟨h', _, hmap⟩ := buildRoom_spec st r h
    obtain ⟨hres, hmapres⟩ := ih (buildRoom st r) h'
    refine ⟨hres, ?_⟩
    rw [hmapres, hmap]
    simp

theorem buildRooms_rmap_keys :
    ∀ (rooms : List Room) (st : BuildState) (v : Vnum),
      (hmLookup (rooms.foldl buildRoom st).room_vnum_to_id v).isSome ↔
        (v ∈ rooms.map Room.vnum ∨ (hmLookup st.room_vnum_to_id v).isSome) := by
  intro rooms
  induction rooms with
  | nil => intro st v; simp
  | cons r rest ih =>
    intro st v
    rw [List.foldl_cons, ih (buildRoom st r) v]
    have hr : (buildRoom st r).room_vnum_to_id =
        hmInsert st.room_vnum_to_id r.vnum
          (st.ew.insertEntity st.ew.world_id (mkRoomComponents r)).2 := rfl
    rw [hr, hmLookup_hmInsert]
    by_cases hv : v = r.vnum
    · simp [hv]
    · simp [hv]

theorem resolveExits_untouched :
    ∀ (links : List (EntityId × Vnum)) (rmap : List (Nat × Nat)) (ew : EntityWorld)
      (i : EntityId) (e : Entity),
      (∀ p ∈ links, p.1 ≠ i) → ew.entityInfo i = some e →
      (resolveExits ew links rmap).entityInfo i = some e := by
  intro links
  induction links with
  | nil => intro _ ew i e _ h; exact h
  | cons q rest ih =>
    intro rmap ew i e hne h
    have hne_rest : ∀ p ∈ rest, p.1 ≠ i := fun p hp => hne p (List.mem_cons_of_mem q hp)
    cases hl : hmLookup rmap q.2 with
    | none =>
      have hstep : resolveExits ew (q :: rest) rmap = resolveExits ew rest rmap := by
        show resolveExits (match hmLookup rmap q.2 with
          | some to_room_id => ew.setLeadsTo q.1 to_room_id
          | none => ew) rest rmap = _
        rw [hl]
      rw [hstep]
      exact ih rmap ew i e hne_rest h
    | some rid =>
      have hstep : resolveExits ew (q :: rest) rmap =
          resolveExits (ew.setLeadsTo q.1 rid) rest rmap := by
        show resolveExits (match hmLookup rmap q.2 with
          | some to_room_id => ew.setLeadsTo q.1 to_room_id
          | none => ew) rest rmap = _
        rw [hl]
      rw [hstep]
      refine ih rmap _ i e hne_rest ?_
      rw [entityInfo_setLeadsTo, h]
      have hid : e.id = i := entityInfo_id h
      have hq : i ≠ q.1 := Ne.symm (hne q (List.mem_cons_self q rest))
      simp [hid, hq]

theorem resolveExits_preserves :
    ∀ (links : List (EntityId × Vnum)) (rmap : List (Nat × Nat)) (ew : EntityWorld)
      (i : EntityId) (e : Entity), ew.entityInfo i = some e →
      ∃ e' : Entity, (resolveExits ew links rmap).entityInfo i = some e' ∧
        e'.components = e.components := by
  intro links
  induction links with
  | nil => intro _ ew i e h; exact ⟨e, h, rfl⟩
  | cons q rest ih =>
    intro rmap ew i e h
    cases hl : hmLookup rmap q.2 with
    | none =>
      have hstep : resolveExits ew (q :: rest) rmap = resolveExits ew rest rmap := by
        show resolveExits (match hmLookup rmap q.2 with
          | some to_room_id => ew.setLeadsTo q.1 to_room_id
          | none => ew) rest rmap = _
        rw [hl]
      rw [hstep]
      exact ih rmap ew i e h
    | some rid =>
      have hstep : resolveExits ew (q :: rest) rmap =
          resolveExits (ew.setLeadsTo q.1 rid) rest rmap := by
        show resolveExits (match hmLookup rmap q.2 with
          | some to_room_id => ew.setLeadsTo q.1 to_room_id
          | none => ew) rest rmap = _
        rw [hl]
      rw [hstep]
      by_cases hid : e.id = q.1
      · have hinfo : (ew.setLeadsTo q.1 rid).entityInfo i =
            some { e with leads_to := some rid } := by
          rw [entityInfo_setLeadsTo, h]
          simp [hid]
        obtain ⟨e', he', hc⟩ := ih rmap _ i _ hinfo
        exact ⟨e', he', hc⟩
      · have hinfo : (ew.setLeadsTo q.1 rid).entityInfo i = some e := by
          rw [entityInfo_setLeadsTo, h]
          simp [hid]
        exact ih rmap _ i e hinfo

theorem resolveExits_sets :
    ∀ (links : List (EntityId × Vnum)) (rmap : List (Nat × Nat)) (ew : EntityWorld),
      (links.map Prod.fst).Nodup →
      (∀ p ∈ links, ∃ e : Entity, ew.entityInfo p.1 = some e ∧
        e.components.general.entity_type = EntityType.Exit ∧ e.leads_to = none) →
      ∀ p ∈ links, ∃ e : Entity,
        (resolveExits ew links rmap).entityInfo p.1 = some e ∧
        e.components.general.entity_type = EntityType.Exit ∧
        e.leads_to = hmLookup rmap p.2 := by
  intro links
  induction links with
  | nil => intro rmap ew _ _ p hp; cases hp
  | cons q rest ih =>
    intro rmap ew hnd hall p hp
    have hnd' : (q.1 :: rest.map Prod.fst).Nodup := by simpa using hnd
    obtain ⟨hq_notin, hnd_rest'⟩ := List.nodup_cons.mp hnd'
    have hnd_rest : (rest.map Prod.fst).Nodup := hnd_rest'
    have hne_rest : ∀ p' ∈ rest, p'.1 ≠ q.1 := by
      intro p' hp' hcontra
      exact hq_notin (hcontra ▸ List.mem_map_of_mem Prod.fst hp')
    cases hl : hmLookup rmap q.2 with
    | none =>
      have hstep : resolveExits ew (q :: rest) rmap = resolveExits ew rest rmap := by
        show resolveExits (match hmLookup rmap q.2 with
          | some to_room_id => ew.setLeadsTo q.1 to_room_id
          | none => ew) rest rmap = _
        rw [hl]
      rw [hstep]
      rcases List.mem_cons.mp hp with rfl | hp'
      · obtain ⟨e, he, ht, hl0⟩ := hall p (List.mem_cons_self p rest)
        have hne : ∀ p' ∈ rest, p'.1 ≠ p.1 := hne_rest
        exact ⟨e, resolveExits_untouched rest rmap ew p.1 e hne he, ht,
          by rw [hl0, hl]⟩
      · exact ih rmap ew hnd_rest
          (fun p' hp' => hall p' (List.mem_cons_of_mem q hp')) p hp'
    | some rid =>
      have hstep : resolveExits ew (q :: rest) rmap =
          resolveExits (ew.setLeadsTo q.1 rid) rest rmap := by
        show resolveExits (match hmLookup rmap q.2 with
          | some to_room_id => ew.setLeadsTo q.1 to_room_id
          | none => ew) rest rmap = _
        rw [hl]
      rw [hstep]
      rcases List.mem_cons.mp hp with rfl | hp'
      · obtain ⟨e, he, ht, hl0⟩ := hall p (List.mem_cons_self p rest)
        have hid : e.id = p.1 := entityInfo_id he
        have hinfo : (ew.setLeadsTo p.1 rid).entityInfo p.1 =
            some { e with leads_to := some rid } := by
          rw [entityInfo_setLeadsTo, he]
          simp [hid]
        refine ⟨{ e with leads_to := some rid },
          resolveExits_untouched rest rmap _ p.1 _ hne_rest hinfo, ht, ?_⟩
        rw [hl]
      · refine ih rmap (ew.setLeadsTo q.1 rid) hnd_rest ?_ p hp'
        intro p' hp'
        obtain ⟨e, he, ht, hl0⟩ := hall p' (List.mem_cons_of_mem q hp')
        have hid : e.id = p'.1 := entityInfo_id he
        refine ⟨e, ?_, ht, hl0⟩
        rw [entityInfo_setLeadsTo, he]
        simp [hid, hne_rest p' hp']

/-- C4: after the room pass and exit resolution, (a) the pending links list
carries one destination vnum per exit record, in input order; (b) every
recorded exit entity exists with kind Exit and has its leads-to relation
equal to the room lookup of its destination vnum — the destination room's
entity id when some room has that vnum, and no relation at all when none has
(still created, no error); (c) the room lookup succeeds exactly for the vnums
of the input rooms; (d) a successful lookup names a room entity carrying
that vnum. -/
theorem exit_resolution_spec (world : World) (ew₀ : EntityWorld) (hwf : storeWF ew₀) :
    ((buildRooms world ew₀).exit_leads_to.map Prod.snd =
      world.rooms.flatMap fun r => r.exits.map ExitRecord.vnum) ∧
    (∀ p ∈ (buildRooms world ew₀).exit_leads_to,
      ((resolveExits (buildRooms world ew₀).ew (buildRooms world ew₀).exit_leads_to
          (buildRooms world ew₀).room_vnum_to_id).entityInfo p.1).map
        (fun e => (e.components.general.entity_type, e.leads_to)) =
      some (EntityType.Exit,
        hmLookup (buildRooms world ew₀).room_vnum_to_id p.2)) ∧
    (∀ v : Vnum, (hmLookup (buildRooms world ew₀).room_vnum_to_id v).isSome ↔
      v ∈ world.rooms.map Room.vnum) ∧
    (∀ (v : Vnum) (rid : Nat),
      hmLookup (buildRooms world ew₀).room_vnum_to_id v = some rid →
      ((resolveExits (buildRooms world ew₀).ew (buildRooms world ew₀).exit_leads_to
          (buildRooms world ew₀).room_vnum_to_id).entityInfo rid).map
        (fun e => (e.components.general.entity_type, e.components.general.vnum)) =
      some (EntityType.Room, v)) := by
  have hb : buildRooms world ew₀ =
      world.rooms.foldl buildRoom
        { ew := ew₀, room_vnum_to_id := [], exit_leads_to := [] } := rfl
  rw [hb]
  have hinit : buildWF { ew := ew₀, room_vnum_to_id := [], exit_leads_to := [] } := by
    refine ⟨hwf, ?_, ?_, ?_, ?_⟩ <;> simp
  obtain ⟨⟨hswf, hbound, hnd, hexits, hrooms⟩, hmap⟩ :=
    buildRooms_foldl_spec world.rooms _ hinit
  refine ⟨by simpa using hmap, ?_, ?_, ?_⟩
  · intro p hp
    obtain ⟨e, he, ht, hl⟩ := resolveExits_sets _ _ _ hnd hexits p hp
    rw [he]
    simp [ht, hl]
  · intro v
    have h := buildRooms_rmap_keys world.rooms
      { ew := ew₀, room_vnum_to_id := [], exit_leads_to := [] } v
    simpa [hmLookup] using h
  · intro v rid hlook
    obtain ⟨e, he, ht, hv⟩ := hrooms (v, rid) (hmLookup_mem hlook)
    obtain ⟨e', he', hcomp⟩ := resolveExits_preserves _ _ _ rid e he
    rw [he']
    simp [hcomp, ht, hv]

/-- C4 witness: on `c4World` (one room, vnum 5, exits to vnums 5 and 7): the
recorded destinations are [5, 7]; the exit toward vnum 5 is an exit entity
whose leads-to is the room's entity id 1; the exit toward vnum 7 is still
created but has no leads-to relation; lookup of vnum 5 names room entity 1
carrying vnum 5. -/
theorem exit_resolution_spec_witness :
    storeWF testStore ∧
    ((2, 5) ∈ (buildRooms c4World testStore).exit_leads_to ∧
      ((c4Resolved.entityInfo 2).map fun e =>
        (e.components.general.entity_type, e.leads_to)) =
        some (EntityType.Exit, some 1)) ∧
    ((3, 7) ∈ (buildRooms c4World testStore).exit_leads_to ∧
      ((c4Resolved.entityInfo 3).map fun e =>
        (e.components.general.entity_type, e.leads_to)) =
        some (EntityType.Exit, none)) ∧
    ((c4Resolved.entityInfo 1).map fun e =>
        (e.components.general.entity_type, e.components.general.vnum)) =
      some (EntityType.Room, 5) := by
  refine ⟨by decide, ⟨by decide, ?_⟩, ⟨by decide, ?_⟩, ?_⟩
  · have h := (exit_resolution_spec c4World testStore (by decide)).2.1 (2, 5) (by decide)
    exact h.trans (by decide)
  · have h := (exit_resolution_spec c4World testStore (by decide)).2.1 (3, 7) (by decide)
    exact h.trans (by decide)
  · exact (exit_resolution_spec c4World testStore (by decide)).2.2.2 5 1 (by decide)

end DemiMud
